import Mathlib

/-!  Verification of the CS 61A Scheme interpreter core
     (src/scheme/scheme.py and src/scheme/scheme_primitives.py).

This file gives a shallow embedding of the interpreter and settles the
claims about it.  Python integers are `Int`; Python floats are modelled
by exact rationals tagged `PyNum.f` (the int/float distinction, which is
what the numeric claims are about, is the tag).  The mutable frame tree
is a store of frames addressed by index; a frame's parent is always an
older index.  Nontermination is modelled by a fuel parameter (one unit
per combination dispatch / per driving-loop iteration), and the host
call-stack budget of the optimized evaluator by a separate depth
parameter.

`scheme_reader.py` is imported by the interpreter but is not among the
provided sources; the `Pair`/`nil` data model and its list utilities are
modelled from the specification (sections 3 and 4.1) and marked
`Modelled from the spec:` below.
-/

/-! ## Numbers (scheme_primitives.py) -/

/-- A Python number as used by scheme_primitives.py: `i` is an int,
`f` is a float.  Floats are modelled by exact rationals: the claims at
issue concern only the int/float tag and exactly representable values,
and the code's normalization test `round(s) == s` acts on the computed
value itself, whatever rounding produced it. -/
inductive PyNum where
  | i : Int → PyNum
  | f : Rat → PyNum
deriving DecidableEq, Repr

/-- The numeric value of a Python number. -/
def PyNum.toQ : PyNum → Rat
  | .i n => (n : Rat)
  | .f q => q

/-- Python `+` on numbers: int+int is int, otherwise float. -/
def pyAdd : PyNum → PyNum → PyNum
  | .i a, .i b => .i (a + b)
  | a, b => .f (a.toQ + b.toQ)

/-- Python `-` on numbers: int-int is int, otherwise float. -/
def pySub : PyNum → PyNum → PyNum
  | .i a, .i b => .i (a - b)
  | a, b => .f (a.toQ - b.toQ)

/-- Python `*` on numbers: int*int is int, otherwise float. -/
def pyMul : PyNum → PyNum → PyNum
  | .i a, .i b => .i (a * b)
  | a, b => .f (a.toQ * b.toQ)

/-- Python unary negation: keeps the int/float tag. -/
def pyNeg : PyNum → PyNum
  | .i a => .i (-a)
  | .f q => .f (-q)

/-- Python numeric comparisons compare values across the int/float tag. -/
def PyNum.lt (a b : PyNum) : Prop := a.toQ < b.toQ

instance : Decidable (PyNum.lt a b) := by
  unfold PyNum.lt
  infer_instance

/-- Whether a Python number is mathematically an integer. -/
def PyNum.isIntegral : PyNum → Prop
  | .i _ => True
  | .f q => q.den = 1

instance : Decidable (PyNum.isIntegral a) := by
  cases a <;> simp [PyNum.isIntegral] <;> infer_instance

/-! ## The Symbolic Value model

Modelled from the spec: `scheme_reader.py` (not under src/) supplies
`Pair`, `nil` and their list utilities (spec sections 3, 4.1, 4.2).
Symbols are Python strings, string literals are strings carrying a
leading-quote marker; here they are separate constructors.  Procedure
values and the `okay` sentinel (scheme.py / scheme_primitives.py) live
in the same Python object universe, hence in the same type.  A
`lambdaP` closure stores the index of its captured frame; a `prim`
carries the primitive's function and its `use_env` flag. -/

/-- Identifier of an embedded primitive procedure.  The table is
restricted to the arithmetic and comparison primitives the claims
exercise; the REPL-glue primitives (`eval`, `apply`, `load`) are out of
scope (spec section 1). -/
inductive Prim where
  | add
  | sub
  | mul
  | div
  | expt
  | numeq
deriving DecidableEq, Repr

/-- The Symbolic Value type (see the module comment above). -/
inductive SVal where
  | nil
  | bool : Bool → SVal
  | num : PyNum → SVal
  | sym : String → SVal
  | str : String → SVal
  | okay
  | pair : SVal → SVal → SVal
  | prim : Prim → Bool → SVal
  | lambdaP : SVal → SVal → Nat → SVal
  | muP : SVal → SVal → SVal
deriving DecidableEq, Repr

/-- scheme_booleanp (scheme_primitives.py 63). -/
def scheme_booleanp : SVal → Bool
  | .bool _ => true
  | _ => false

/-- scheme_true: all values in Scheme are true except False
(scheme_primitives.py 67). -/
def scheme_true : SVal → Bool
  | .bool false => false
  | _ => true

/-- scheme_stringp (scheme_primitives.py 147). -/
def scheme_stringp : SVal → Bool
  | .str _ => true
  | _ => false

/-- scheme_symbolp (scheme_primitives.py 151). -/
def scheme_symbolp : SVal → Bool
  | .sym _ => true
  | _ => false

/-- scheme_numberp: numbers, excluding booleans (scheme_primitives.py 155). -/
def scheme_numberp : SVal → Bool
  | .num _ => true
  | _ => false

/-- scheme_pairp (scheme_primitives.py 83). -/
def scheme_pairp : SVal → Bool
  | .pair _ _ => true
  | _ => false

/-- scheme_nullp (scheme_primitives.py 87). -/
def scheme_nullp : SVal → Bool
  | .nil => true
  | _ => false

/-- scheme_listp: whether the value is a well-formed (proper) list
(scheme_primitives.py 91). -/
def scheme_listp : SVal → Bool
  | .nil => true
  | .pair _ b => scheme_listp b
  | _ => false

/-- scheme_atomp: boolean, number, symbol or null (scheme_primitives.py 300). -/
def scheme_atomp (x : SVal) : Bool :=
  scheme_booleanp x || scheme_numberp x || scheme_symbolp x || scheme_nullp x

/-- self_evaluating (scheme.py 39): atom, string, or the okay sentinel. -/
def self_evaluating (expr : SVal) : Bool :=
  scheme_atomp expr || scheme_stringp expr || expr == SVal.okay

/-- Modelled from the spec: Python `len` on a Scheme list (`Pair.__len__`,
`nil.__len__`); `none` models the host `TypeError` raised on an improper
list ("length fails with TypeError if improper list", spec 4.1). -/
def listLen : SVal → Option Nat
  | .nil => some 0
  | .pair _ b => (listLen b).map (· + 1)
  | _ => none

/-- Modelled from the spec: indexed access `Pair.__getitem__`; every use in
scheme.py is guarded by a length check, so the out-of-range host errors are
collapsed to `none` (spec 4.1 "indexed access"). -/
def nth : SVal → Nat → Option SVal
  | .pair a _, 0 => some a
  | .pair _ b, k+1 => nth b k
  | _, _ => none

/-- Modelled from the spec: conversion of a proper Scheme list to a host
list (`list(...)`, spec 4.1 "conversion to/from host sequences"); used
only under `scheme_listp` guards. -/
def toHostList : SVal → List SVal
  | .pair a b => a :: toHostList b
  | _ => []

/-- First element of a pair; used only where the source accesses `.first`
on a value already known to be a pair. -/
def SVal.fst : SVal → SVal
  | .pair a _ => a
  | x => x

/-- Second element of a pair; used only where the source accesses `.second`
on a value already known to be a pair. -/
def SVal.snd : SVal → SVal
  | .pair _ b => b
  | x => x

/-! ## Errors, the store of frames, and the evaluation result monad -/

/-- An error surfaced during evaluation.  `schemeError` is the
interpreter's own `SchemeError` (spec: SyntaxError / NameError /
TypeError / ArityError are all one host class), carrying the format
string and the formatted values; `hostError` is any other host-level
exception, which scheme.py does not catch as a SchemeError. -/
inductive SErr where
  | schemeError : String → List SVal → SErr
  | hostError : String → SErr
deriving DecidableEq, Repr

/-- An environment frame: bindings plus an optional parent index
(`Frame.__init__`, scheme.py 99). -/
structure Frame where
  bindings : List (String × SVal)
  parent : Option Nat
deriving DecidableEq, Repr

/-- The store of all frames ever created; a frame is addressed by its
index, and a frame's parent always has a smaller index. -/
abbrev Store := List Frame

/-- Result of running an evaluation step: a value with the updated store,
an error, fuel exhaustion (`timeout`, modelling nontermination), or
depth-budget exhaustion (`overflow`, modelling host stack overflow). -/
inductive EvalRes (α : Type) where
  | ok : α → Store → EvalRes α
  | err : SErr → EvalRes α
  | timeout : EvalRes α
  | overflow : EvalRes α
deriving DecidableEq, Repr

/-- A stateful, fallible evaluation computation. -/
def M (α : Type) : Type := Store → EvalRes α

/-- Sequencing a result into a continuation. -/
def EvalRes.bindR {α β : Type} : EvalRes α → (α → M β) → EvalRes β
  | .ok a st, k => k a st
  | .err e, _ => .err e
  | .timeout, _ => .timeout
  | .overflow, _ => .overflow

/-- Sequencing of evaluation computations. -/
def M.bind {α β : Type} (m : M α) (k : α → M β) : M β :=
  fun st => (m st).bindR k

/-! ## Environment frames (scheme.py 96-141) -/

/-- Insert or overwrite a binding in a frame's dictionary, preserving
insertion order as a Python dict does (`Frame.define`, scheme.py 139). -/
def define_binding (bs : List (String × SVal)) (s : String) (v : SVal) :
    List (String × SVal) :=
  match bs with
  | [] => [(s, v)]
  | (k, w) :: rest =>
    if k = s then (k, v) :: rest else (k, w) :: define_binding rest s v

/-- Frame.define (scheme.py 139): bind in this frame only.  A write to a
missing frame index leaves the store unchanged; it is unreachable, every
frame index handed out refers to an allocated frame. -/
def frame_define (st : Store) (id : Nat) (s : String) (v : SVal) : Store :=
  match st[id]? with
  | some fr => st.set id { fr with bindings := define_binding fr.bindings s v }
  | none => st

/-- Frame.lookup (scheme.py 111): search this frame, then the parent
chain; error when the chain runs out.  The recursion is on the frame
index: every frame's parent has a smaller index (frames are only ever
created with an already-allocated parent), so the guard `p < id` always
holds on reachable stores and the `hostError` branch is dead there.
The descent is made structural on a counter that starts at the frame's
own index, which bounds the chain's length; the counter never runs out
(fuel irrelevance is proved below). -/
def frame_lookup_go (st : Store) (s : String) : Nat → Nat → Except SErr SVal
  | fuel, id =>
    match st[id]? with
    | none => .error (.hostError ("missing frame"))
    | some fr =>
      match fr.bindings.lookup s with
      | some v => .ok v
      | none =>
        match fr.parent with
        | some p =>
          match fuel with
          | 0 => .error (.hostError ("cyclic frame chain"))
          | f + 1 =>
            if p < id then frame_lookup_go st s f p
            else .error (.hostError ("cyclic frame chain"))
        | none => .error (.schemeError ("unknown identifier: {0}") [.sym s])

/-- Frame.lookup (scheme.py 111), entered with the full counter. -/
def frame_lookup (st : Store) (id : Nat) (s : String) : Except SErr SVal :=
  frame_lookup_go st s id id

/-- Bind formals to values positionally in a fresh frame
(the loop body of `Frame.make_child_frame`, scheme.py 134). -/
def bind_formals (st : Store) (id : Nat) :
    List SVal → List SVal → Store
  | [], _ => st
  | _, [] => st
  | f :: fs, v :: vs =>
    match f with
    | .sym s => bind_formals (frame_define st id s v) id fs vs
    | _ => st

/-- Frame.make_child_frame (scheme.py 121): allocate a new frame whose
parent is `id`, then bind each formal positionally when the counts
match, else raise `SchemeError('Invalid number of arguments')`.  The
result is the new frame's index.  Python's `len` on a non-list (possible
only through the unchecked-formals slip of `check_formals`) raises a
host error here. -/
def make_child_frame (st : Store) (id : Nat) (formals vals : SVal) :
    EvalRes Nat :=
  let newId := st.length
  let st1 := st ++ [⟨[], some id⟩]
  match listLen formals, listLen vals with
  | some lf, some lv =>
    if lf = lv then
      .ok newId (bind_formals st1 newId (toHostList formals) (toHostList vals))
    else .err (.schemeError ("Invalid number of arguments") [])
  | _, _ => .err (.hostError ("len() applied to a non-list"))

/-! ## Primitive procedures (scheme_primitives.py) -/

/-- An exception inside a primitive: `typeErr` is a host `TypeError`
(wrong host arity or argument shape — caught by `apply_primitive` and
re-raised as a bare SchemeError), `zeroDiv` is a host
`ZeroDivisionError`, `sch` is a `SchemeError`, and `unmodelled` marks
the one spot (float-exponent `pow`) whose exact host float value this
embedding does not represent. -/
inductive PrimErr where
  | typeErr
  | zeroDiv
  | sch : String → List SVal → PrimErr
  | unmodelled
deriving DecidableEq, Repr

/-- The indexed loop of `_check_nums` (scheme_primitives.py 163). -/
def check_nums_go : Nat → List SVal → Except PrimErr Unit
  | _, [] => .ok ()
  | idx, v :: rest =>
    match v with
    | .num _ => check_nums_go (idx + 1) rest
    | _ => .error (.sch ("operand {0} ({1}) is not a number")
        [.num (.i idx), v])

/-- _check_nums (scheme_primitives.py 163): every argument must be a
number. -/
def _check_nums (vals : List SVal) : Except PrimErr Unit :=
  check_nums_go 0 vals

/-- The normalization step of `_arith`: `if round(s) == s: s = round(s)`
(scheme_primitives.py 177).  For a float `s`, `round(s)` is an int and
equals `s` exactly when `s` is integral, in which case the result is
that int; a non-integral float and an int are left unchanged. -/
def roundNorm : PyNum → PyNum
  | .i a => .i a
  | .f q => if q.den = 1 then .i q.num else .f q

/-- The folding loop of `_arith`: `s = init; for val in vals: s = fn(s, val)`
(scheme_primitives.py 174).  All elements are numbers when this runs
(after `_check_nums`); the `typeErr` arm is dead. -/
def arith_fold (fn : PyNum → PyNum → Except PrimErr PyNum) :
    PyNum → List SVal → Except PrimErr PyNum
  | s, [] => .ok s
  | s, .num n :: rest => do arith_fold fn (← fn s n) rest
  | _, _ :: _ => .error .typeErr

/-- _arith (scheme_primitives.py 170): check numbers, fold `fn` from
`init`, normalize an integral result to integer representation. -/
def _arith (fn : PyNum → PyNum → Except PrimErr PyNum) (init : PyNum)
    (vals : List SVal) : Except PrimErr SVal := do
  let _ ← _check_nums vals
  let s ← arith_fold fn init vals
  return .num (roundNorm s)

/-- Python `operator.add` lifted into the primitive-exception monad. -/
def pyAddE (a b : PyNum) : Except PrimErr PyNum := .ok (pyAdd a b)

/-- Python `operator.sub` lifted into the primitive-exception monad. -/
def pySubE (a b : PyNum) : Except PrimErr PyNum := .ok (pySub a b)

/-- Python `operator.mul` lifted into the primitive-exception monad. -/
def pyMulE (a b : PyNum) : Except PrimErr PyNum := .ok (pyMul a b)

/-- Python `operator.truediv`: always a float; division by zero raises
ZeroDivisionError. -/
def pyTruediv (a b : PyNum) : Except PrimErr PyNum :=
  if b.toQ = 0 then .error .zeroDiv else .ok (.f (a.toQ / b.toQ))

/-- scheme_add, the `+` primitive (scheme_primitives.py 181). -/
def scheme_add (vals : List SVal) : Except PrimErr SVal :=
  _arith pyAddE (.i 0) vals

/-- scheme_mul, the `*` primitive (scheme_primitives.py 192). -/
def scheme_mul (vals : List SVal) : Except PrimErr SVal :=
  _arith pyMulE (.i 1) vals

/-- scheme_sub, the `-` primitive (scheme_primitives.py 185): with one
argument, the raw negation `-val0` (no normalization); otherwise the
`_arith` fold starting from `val0`. -/
def scheme_sub (val0 : SVal) (vals : List SVal) : Except PrimErr SVal := do
  let _ ← _check_nums (val0 :: vals)
  match val0, vals with
  | .num n, [] => return .num (pyNeg n)
  | .num n, _ => _arith pySubE n vals
  | _, _ => .error .typeErr

/-- The body of scheme_div's `try` block (scheme_primitives.py 200):
with one argument, the raw host quotient `1 / val0` (a float, no
normalization); otherwise the `_arith` fold. -/
def scheme_div_body (val0 : SVal) (vals : List SVal) : Except PrimErr SVal :=
  match val0, vals with
  | .num n, [] => do return .num (← pyTruediv (.i 1) n)
  | .num n, _ => _arith pyTruediv n vals
  | _, _ => .error .typeErr

/-- scheme_div, the `/` primitive (scheme_primitives.py 196): checks
numbers, runs the body, and re-raises a ZeroDivisionError as a
SchemeError. -/
def scheme_div (val0 : SVal) (vals : List SVal) : Except PrimErr SVal :=
  match _check_nums (val0 :: vals) with
  | .error e => .error e
  | .ok _ =>
    match scheme_div_body val0 vals with
    | .error .zeroDiv => .error (.sch ("division by zero") [])
    | r => r

/-- Python `pow` on numbers.  `pow(0, negative)` raises
ZeroDivisionError (scheme_expt does not catch it).  A float exponent
produces a host float that is not rational in general; that case is
outside the claims' scope and marked `unmodelled`. -/
def pyPow : PyNum → PyNum → Except PrimErr PyNum
  | .i a, .i b =>
    if 0 ≤ b then .ok (.i (a ^ b.toNat))
    else if a = 0 then .error .zeroDiv
    else .ok (.f ((a : Rat) ^ b))
  | .f q, .i b =>
    if 0 ≤ b then .ok (.f (q ^ b.toNat))
    else if q = 0 then .error .zeroDiv
    else .ok (.f (q ^ b))
  | _, .f _ => .error .unmodelled

/-- scheme_expt, the `expt` primitive (scheme_primitives.py 206): the
raw host `pow`, with no integral normalization. -/
def scheme_expt (val0 val1 : SVal) : Except PrimErr SVal := do
  let _ ← _check_nums [val0, val1]
  match val0, val1 with
  | .num a, .num b => return .num (← pyPow a b)
  | _, _ => .error .typeErr

/-- scheme_eq, the `=` primitive (scheme_primitives.py 261): numeric
equality across the int/float tag via `_numcomp`. -/
def scheme_eq (x y : SVal) : Except PrimErr SVal := do
  let _ ← _check_nums [x, y]
  match x, y with
  | .num a, .num b => return .bool (a.toQ == b.toQ)
  | _, _ => .error .typeErr

/-- Python `%` on numbers: floored modulus, result takes the divisor's
sign; int % int is an int, otherwise a float.  Division by zero raises
ZeroDivisionError. -/
def pyMod : PyNum → PyNum → Except PrimErr PyNum
  | .i a, .i b => if b = 0 then .error .zeroDiv else .ok (.i (Int.fmod a b))
  | a, b =>
    if b.toQ = 0 then .error .zeroDiv
    else .ok (.f (a.toQ - b.toQ * (⌊a.toQ / b.toQ⌋ : Int)))

/-- scheme_modulo, the `modulo` primitive (scheme_primitives.py 223):
Python `%`, with ZeroDivisionError re-raised as a SchemeError. -/
def scheme_modulo (val0 val1 : SVal) : Except PrimErr SVal :=
  match _check_nums [val0, val1] with
  | .error e => .error e
  | .ok _ =>
    match val0, val1 with
    | .num a, .num b =>
      match pyMod a b with
      | .error .zeroDiv => .error (.sch ("division by zero") [])
      | .error e => .error e
      | .ok r => .ok (.num r)
    | _, _ => .error .typeErr

/-- The sign-correcting `while` loop of scheme_remainder
(scheme_primitives.py 238), with an explicit iteration budget standing
in for the unbounded host loop: while the remainder's sign opposes
`val0`'s, subtract `val1`.  `none` means the budget ran out. -/
def rem_loop (fuel : Nat) (val0 val1 result : PyNum) : Option PyNum :=
  match fuel with
  | 0 => none
  | f + 1 =>
    if (PyNum.lt result (.i 0) ∧ PyNum.lt (.i 0) val0) ∨
       (PyNum.lt (.i 0) result ∧ PyNum.lt val0 (.i 0)) then
      rem_loop f val0 val1 (pySub result val1)
    else some result

/-- scheme_remainder, the `remainder` primitive (scheme_primitives.py
231): start from Python `%`, re-raising ZeroDivisionError as a
SchemeError, then run the sign-correcting loop.  `hostError`-like loop
exhaustion is reported as `unmodelled`; two iterations always suffice
(proved below). -/
def scheme_remainder (fuel : Nat) (val0 val1 : SVal) : Except PrimErr SVal :=
  match _check_nums [val0, val1] with
  | .error e => .error e
  | .ok _ =>
    match val0, val1 with
    | .num a, .num b =>
      match pyMod a b with
      | .error .zeroDiv => .error (.sch ("division by zero") [])
      | .error e => .error e
      | .ok r =>
        match rem_loop fuel a b r with
        | some r2 => .ok (.num r2)
        | none => .error .unmodelled
    | _, _ => .error .typeErr

/-- The primitive dispatch: host-level arity errors (`fn(*args)` with
the wrong count) are `typeErr`. -/
def prim_fn : Prim → List SVal → Except PrimErr SVal
  | .add, vals => scheme_add vals
  | .mul, vals => scheme_mul vals
  | .sub, [] => .error .typeErr
  | .sub, v :: vs => scheme_sub v vs
  | .div, [] => .error .typeErr
  | .div, v :: vs => scheme_div v vs
  | .expt, [a, b] => scheme_expt a b
  | .expt, _ => .error .typeErr
  | .numeq, [a, b] => scheme_eq a b
  | .numeq, _ => .error .typeErr

/-! ## Shared evaluation helpers

In scheme.py the special-form handlers call the module-level name
`scheme_eval`, which line 397 rebinds to `scheme_optimized_eval`; and
they pass `True` as the tail flag on "last expression in sequence"
calls, which the naive evaluator ignores and the optimized evaluator
turns into an `Evaluate` marker.  The handlers are therefore embedded
once, parameterized by the evaluator `ev` in use for non-tail calls,
the evaluator `evt` for tail-flagged calls, and the injection `ret` of
a plain value into the handler's result type.  The naive evaluator
instantiates `ev = evt = scheme_eval fuel`, `ret = id`; the optimized
evaluator instantiates `ev` with itself, `evt` with the
marker-producing tail mode and `ret = OptRes.value`. -/

/-- Return a value without touching the store. -/
def M.pure {α : Type} (a : α) : M α := fun st => .ok a st

/-- Raise an error. -/
def M.err {α : Type} (e : SErr) : M α := fun _ => .err e

/-- Run a pure structure check, then continue. -/
def M.chk {α : Type} (c : Except SErr Unit) (k : M α) : M α :=
  match c with
  | .ok _ => k
  | .error e => M.err e

/-- Lift the result of a pure (non-evaluating) handler. -/
def M.ofExcept {α : Type} (c : Except SErr SVal) (ret : SVal → α) : M α :=
  fun st =>
    match c with
    | .ok v => .ok (ret v) st
    | .error e => .err e

/-- The string of a symbol; used only where the source has already
established `scheme_symbolp`. -/
def symName : SVal → String
  | .sym s => s
  | _ => ""

/-- Indexed access with a dead default; every use is guarded by a
`check_form` length check as in the source. -/
def nthD (expr : SVal) (k : Nat) : SVal := (nth expr k).getD .nil

/-- The special form keywords (SPECIAL_FORMS, scheme.py 277 and 355). -/
def special_form_names : List String :=
  ["and", "begin", "cond", "define", "if", "lambda", "let", "or", "quote",
   "mu"]

/-- Whether a value is a symbol naming a special form
(`scheme_symbolp(first) and first in SPECIAL_FORMS`, scheme.py 31). -/
def is_special_form (v : SVal) : Bool :=
  match v with
  | .sym s => special_form_names.contains s
  | _ => false

/-- check_form (scheme.py 291): a proper list of length between `mn` and
`mx` (`none` is no maximum, Python's `float('inf')`). -/
def check_form (expr : SVal) (mn : Nat) (mx : Option Nat) : Except SErr Unit :=
  if ¬ scheme_listp expr then
    .error (.schemeError ("badly formed expression: ") [expr])
  else
    match listLen expr with
    | none => .error (.hostError ("unreachable: a proper list has a length"))
    | some length =>
      if length < mn then
        .error (.schemeError ("too few operands in form") [])
      else
        match mx with
        | some m =>
          if length > m then
            .error (.schemeError ("too many operands in form") [])
          else .ok ()
        | none => .ok ()

/-- The indexed loop of check_formals (scheme.py 311), carrying the
mutating `python_list`: each element must be a symbol, is removed (first
occurrence) from the carried list, and must not still occur there. -/
def check_formals_go : List SVal → List SVal → Except SErr Unit
  | [], _ => .ok ()
  | x :: rest, pl =>
    if ¬ scheme_symbolp x then
      .error (.schemeError ("invalid scheme symbol") [x])
    else
      let pl1 := pl.erase x
      if x ∈ pl1 then .error (.schemeError ("repeated symbol(s)") [])
      else check_formals_go rest pl1

/-- check_formals (scheme.py 302).  Note the body runs only under
`if scheme_listp(formals):` and there is no else branch: a formals
operand that is not a proper list passes the check silently, although
the docstring promises a SchemeError for it. -/
def check_formals (formals : SVal) : Except SErr Unit :=
  if scheme_listp formals then
    check_formals_go (toHostList formals) (toHostList formals)
  else .ok ()

/-! ## Special form handlers (scheme.py 169-274, 348-353) -/

/-- do_quote_form (scheme.py 186): exactly one operand, returned
unevaluated. -/
def do_quote_form (expressions : SVal) : Except SErr SVal := do
  let _ ← check_form expressions 1 (some 1)
  return expressions.fst

/-- do_lambda_form (scheme.py 196): at least two operands, formals
checked by check_formals, and a LambdaProcedure closing over the current
frame. -/
def do_lambda_form (expressions : SVal) (env : Nat) : Except SErr SVal := do
  let _ ← check_form expressions 2 none
  let _ ← check_formals expressions.fst
  return .lambdaP expressions.fst expressions.snd env

/-- do_mu_form (scheme.py 348): like lambda but produces a MuProcedure
capturing no frame. -/
def do_mu_form (expressions : SVal) : Except SErr SVal := do
  let _ ← check_form expressions 2 none
  let _ ← check_formals (nthD expressions 0)
  return .muP (nthD expressions 0) expressions.snd

/-- do_define_form (scheme.py 169): a symbol target takes exactly two
operands, evaluates the second and binds in the current frame, returning
the symbol; a pair target is the procedure shorthand, binding a lambda
built from the remaining structure; anything else is a Non-symbol
error. -/
def do_define_form {α : Type} (ev : SVal → Nat → M SVal) (ret : SVal → α)
    (expressions : SVal) (env : Nat) : M α :=
  M.chk (check_form expressions 2 none)
    (match nthD expressions 0 with
     | .sym s =>
       M.chk (check_form expressions 2 (some 2))
         (M.bind (ev (nthD expressions 1) env) fun v => fun st =>
            .ok (ret (.sym s)) (frame_define st env s v))
     | .pair tf targs =>
       match tf with
       | .sym s =>
         (fun st =>
           match do_lambda_form (.pair targs expressions.snd) env with
           | .ok lam => .ok (ret (.sym s)) (frame_define st env s lam)
           | .error e => .err e)
       | other => M.err (.schemeError ("Non-symbol: {}") [other])
     | other => M.err (.schemeError ("Non-symbol: {}") [other]))

/-- eval_all (scheme.py 53): evaluate a Scheme list of expressions in
order, the last one with the tail flag; an empty list yields the okay
sentinel.  The indexed Python loop is rendered as structural recursion
on the (always proper) list. -/
def eval_all {α : Type} (ev : SVal → Nat → M SVal) (evt : SVal → Nat → M α)
    (ret : SVal → α) : SVal → Nat → M α
  | .nil, _ => M.pure (ret .okay)
  | .pair e .nil, env => evt e env
  | .pair e rest, env =>
    M.bind (ev e env) fun _ => eval_all ev evt ret rest env
  | _, _ => M.err (.hostError ("improper expression sequence"))

/-- do_begin_form (scheme.py 191): at least one operand, then
eval_all. -/
def do_begin_form {α : Type} (ev : SVal → Nat → M SVal)
    (evt : SVal → Nat → M α) (ret : SVal → α) (expressions : SVal)
    (env : Nat) : M α :=
  M.chk (check_form expressions 1 none) (eval_all ev evt ret expressions env)

/-- do_if_form (scheme.py 204): two or three operands; a truthy test
tail-evaluates the first branch, otherwise the second branch when given,
otherwise okay. -/
def do_if_form {α : Type} (ev : SVal → Nat → M SVal) (evt : SVal → Nat → M α)
    (ret : SVal → α) (expressions : SVal) (env : Nat) : M α :=
  M.chk (check_form expressions 2 (some 3))
    (M.bind (ev (nthD expressions 0) env) fun test =>
      if scheme_true test then evt (nthD expressions 1) env
      else if listLen expressions = some 2 then M.pure (ret .okay)
      else evt (nthD expressions 2) env)

/-- do_and_form (scheme.py 214): no operands is True; a falsy
non-final operand short-circuits to False; the final operand is
tail-evaluated. -/
def do_and_form {α : Type} (ev : SVal → Nat → M SVal)
    (evt : SVal → Nat → M α) (ret : SVal → α) : SVal → Nat → M α
  | .nil, _ => M.pure (ret (.bool true))
  | .pair e .nil, env => evt e env
  | .pair e rest, env =>
    M.bind (ev e env) fun term =>
      if ¬ scheme_true term then M.pure (ret (.bool false))
      else do_and_form ev evt ret rest env
  | _, _ => M.err (.hostError ("improper operand list"))

/-- do_or_form (scheme.py 225): no operands is False; a truthy
non-final operand short-circuits to its value; the final operand is
tail-evaluated. -/
def do_or_form {α : Type} (ev : SVal → Nat → M SVal)
    (evt : SVal → Nat → M α) (ret : SVal → α) : SVal → Nat → M α
  | .nil, _ => M.pure (ret (.bool false))
  | .pair e .nil, env => evt e env
  | .pair e rest, env =>
    M.bind (ev e env) fun term =>
      if scheme_true term then M.pure (ret term)
      else do_or_form ev evt ret rest env
  | _, _ => M.err (.hostError ("improper operand list"))

/-- The body dispatch of a matched cond clause (scheme.py 250): a
multi-expression body runs eval_all, an empty body returns the test's
value, a single expression is tail-evaluated. -/
def cond_body {α : Type} (ev : SVal → Nat → M SVal)
    (evt : SVal → Nat → M α) (ret : SVal → α) (clause test : SVal)
    (env : Nat) : M α :=
  match clause.snd with
  | .nil => M.pure (ret test)
  | .pair b .nil => evt b env
  | body => eval_all ev evt ret body env

/-- do_cond_form (scheme.py 236): each clause needs at least one
element; `else` must be last and have a non-empty body; the first clause
with a truthy test runs its body; no match yields okay. -/
def do_cond_form {α : Type} (ev : SVal → Nat → M SVal)
    (evt : SVal → Nat → M α) (ret : SVal → α) : SVal → Nat → M α
  | .nil, _ => M.pure (ret .okay)
  | .pair clause rest, env =>
    M.chk (check_form clause 1 none)
      (if clause.fst == .sym ("else") then
         if rest ≠ .nil then M.err (.schemeError ("else must be last") [])
         else if clause.snd == .nil then
           M.err (.schemeError ("badly formed else clause") [])
         else cond_body ev evt ret clause (.bool true) env
       else
         M.bind (ev clause.fst env) fun test =>
           if scheme_true test then cond_body ev evt ret clause test env
           else do_cond_form ev evt ret rest env)
  | _, _ => M.err (.hostError ("improper clause list"))

/-- The binding loop of make_let_frame (scheme.py 269): each binding
must be a 2-list whose head passes check_formals; the right-hand side is
evaluated in the outer environment `env` and bound in the new frame
`let_env`. -/
def make_let_go (ev : SVal → Nat → M SVal) : SVal → Nat → Nat → M Nat
  | .nil, _, let_env => M.pure let_env
  | .pair bind rest, env, let_env =>
    (match listLen bind with
     | none => M.err (.hostError ("len() applied to an improper binding"))
     | some n =>
       if n ≠ 2 then M.err (.schemeError ("bad definition") [])
       else
         M.chk (check_formals (.pair bind.fst .nil))
           (M.bind (ev (nthD bind 1) env) fun v => fun st =>
              make_let_go ev rest env let_env
                (frame_define st let_env (symName bind.fst) v)))
  | _, _, _ => M.err (.hostError ("improper bindings list"))

/-- make_let_frame (scheme.py 264): the bindings operand must be a list;
a fresh empty child frame of `env` is allocated and filled by the
binding loop. -/
def make_let_frame (ev : SVal → Nat → M SVal) (bindings : SVal)
    (env : Nat) : M Nat := fun st =>
  if ¬ scheme_listp bindings then
    .err (.schemeError ("bad bindings list in let form") [])
  else
    (make_child_frame st env .nil .nil).bindR fun let_env =>
      make_let_go ev bindings env let_env

/-- do_let_form (scheme.py 258): at least two operands; build the let
frame, then tail-evaluate the body sequence in it. -/
def do_let_form {α : Type} (ev : SVal → Nat → M SVal)
    (evt : SVal → Nat → M α) (ret : SVal → α) (expressions : SVal)
    (env : Nat) : M α :=
  M.chk (check_form expressions 2 none)
    (M.bind (make_let_frame ev expressions.fst env) fun let_env =>
       eval_all ev evt ret expressions.snd let_env)

/-! ## Application (scheme.py 43-89) -/

/-- apply_primitive (scheme.py 63): convert the argument list, invoke
the host function, and re-raise a host TypeError as a bare SchemeError.
The `use_env` primitives (`eval`, `apply`, `load`) are REPL glue outside
this embedding's scope. -/
def apply_primitive (p : Prim) (useEnv : Bool) (args : SVal) : M SVal :=
  fun st =>
    if useEnv then .err (.hostError ("use_env primitive not modelled"))
    else
      match prim_fn p (toHostList args) with
      | .ok v => .ok v st
      | .error .typeErr => .err (.schemeError ("") [])
      | .error (.sch m payload) => .err (.schemeError m payload)
      | .error .zeroDiv => .err (.hostError ("uncaught ZeroDivisionError"))
      | .error .unmodelled => .err (.hostError ("unmodelled host value"))

/-- make_call_frame (scheme.py 81): a LambdaProcedure's child frame
hangs off its captured frame, a MuProcedure's off the caller's current
frame.  The source returns None on any other procedure; unreachable,
since scheme_apply only calls it on user-defined procedures. -/
def make_call_frame (procedure args : SVal) (env : Nat) : M Nat := fun st =>
  match procedure with
  | .lambdaP formals _ penv => make_child_frame st penv formals args
  | .muP formals _ => make_child_frame st env formals args
  | _ => .err (.hostError ("make_call_frame on a non-user procedure"))

/-- scheme_apply (scheme.py 43): apply a primitive directly; apply a
user-defined procedure by building its call frame and tail-evaluating
its body there; anything else cannot be called. -/
def scheme_apply {α : Type} (ev : SVal → Nat → M SVal)
    (evt : SVal → Nat → M α) (ret : SVal → α) (procedure args : SVal)
    (env : Nat) : M α :=
  match procedure with
  | .prim p useEnv =>
    M.bind (apply_primitive p useEnv args) fun v => M.pure (ret v)
  | .lambdaP _ body _ =>
    M.bind (make_call_frame procedure args env) fun new_env =>
      eval_all ev evt ret body new_env
  | .muP _ body =>
    M.bind (make_call_frame procedure args env) fun new_env =>
      eval_all ev evt ret body new_env
  | _ => M.err (.schemeError ("cannot call: {0}") [procedure])

/-- The operand map `rest.map(lambda operand: scheme_eval(operand, env))`
(scheme.py 35): left to right, building a new Scheme list. -/
def eval_args (ev : SVal → Nat → M SVal) : SVal → Nat → M SVal
  | .nil, _ => M.pure .nil
  | .pair e rest, env =>
    M.bind (ev e env) fun v =>
      M.bind (eval_args ev rest env) fun vs => M.pure (.pair v vs)
  | _, _ => M.err (.hostError ("map over an improper list"))

/-- The SPECIAL_FORMS dispatch (scheme.py 32): route a recognized
keyword to its handler. -/
def do_special {α : Type} (ev : SVal → Nat → M SVal)
    (evt : SVal → Nat → M α) (ret : SVal → α) (name : String)
    (rest : SVal) (env : Nat) : M α :=
  match name with
  | "and" => do_and_form ev evt ret rest env
  | "begin" => do_begin_form ev evt ret rest env
  | "cond" => do_cond_form ev evt ret rest env
  | "define" => do_define_form ev ret rest env
  | "if" => do_if_form ev evt ret rest env
  | "lambda" => M.ofExcept (do_lambda_form rest env) ret
  | "let" => do_let_form ev evt ret rest env
  | "or" => do_or_form ev evt ret rest env
  | "quote" => M.ofExcept (do_quote_form rest) ret
  | "mu" => M.ofExcept (do_mu_form rest) ret
  | _ => M.err (.hostError ("not a special form"))

/-- The combination step of the evaluator (scheme.py 27-37 and
383-392, identical in both): a non-atomic expression must be a proper
list; a special-form head dispatches to its handler, otherwise the head
is evaluated to a procedure, the operands are mapped through the
evaluator, and the procedure is applied. -/
def scheme_eval_comb {α : Type} (ev : SVal → Nat → M SVal)
    (evt : SVal → Nat → M α) (ret : SVal → α) (expr : SVal) (env : Nat) :
    M α :=
  match expr with
  | .pair first rest =>
    if ¬ scheme_listp (SVal.pair first rest) then
      M.err (.schemeError ("malformed list: {0}") [.pair first rest])
    else if is_special_form first then
      do_special ev evt ret (symName first) rest env
    else
      M.bind (ev first env) fun procedure =>
        M.bind (eval_args ev rest env) fun args =>
          scheme_apply ev evt ret procedure args env
  | other =>
    if ¬ scheme_listp other then
      M.err (.schemeError ("malformed list: {0}") [other])
    else M.err (.hostError ("unreachable: nil is self-evaluating"))

/-! ## The two evaluators -/

/-- scheme_eval (scheme.py 11-37): the naive directly-recursive
evaluator.  A symbol is looked up, a self-evaluating atom returned;
otherwise one fuel unit is spent and the combination step runs with this
same evaluator, at the next fuel level, as both the plain and the
tail-flagged evaluator (the naive evaluator ignores the tail flag). -/
def scheme_eval : Nat → SVal → Nat → M SVal
  | fuel, expr, env => fun st =>
    match expr with
    | .sym s =>
      (match frame_lookup st env s with
       | .ok v => .ok v st
       | .error e => .err e)
    | e =>
      if self_evaluating e then .ok e st
      else
        match fuel with
        | 0 => .timeout
        | f + 1 => scheme_eval_comb (scheme_eval f) (scheme_eval f) id e env st

/-- A result of the optimized evaluator's step: a final value, or a
deferred `Evaluate(expr, env)` marker (scheme.py 361). -/
inductive OptRes where
  | value : SVal → OptRes
  | evaluate : SVal → Nat → OptRes
deriving DecidableEq, Repr

/-- scheme_optimized_eval in tail mode (scheme.py 371-377): atoms are
handled as usual; any other expression is returned as an Evaluate
marker.  The host call returns immediately, so it consumes neither fuel
nor lasting stack depth. -/
def opt_eval_tail (expr : SVal) (env : Nat) : M OptRes := fun st =>
  match expr with
  | .sym s =>
    (match frame_lookup st env s with
     | .ok v => .ok (.value v) st
     | .error e => .err e)
  | e =>
    if self_evaluating e then .ok (.value e) st
    else .ok (.evaluate e env) st

/-- scheme_optimized_eval in non-tail mode (scheme.py 367-381),
abstracted over the driving loop it enters: one unit of the host stack
budget is consumed; atoms are handled directly and anything else is
wrapped in a marker and handed to the loop. -/
def opt_eval_with (loop : Nat → OptRes → M SVal) (depth : Nat)
    (expr : SVal) (env : Nat) : M SVal := fun st =>
  match depth with
  | 0 => .overflow
  | d + 1 =>
    match expr with
    | .sym s =>
      (match frame_lookup st env s with
       | .ok v => .ok v st
       | .error e => .err e)
    | e =>
      if self_evaluating e then .ok e st
      else loop d (.evaluate e env) st

/-- The driving while-loop (scheme.py 381-393): repeatedly unwrap
Evaluate markers, spending one fuel unit per iteration, running the
combination step with the optimized evaluator (at the remaining fuel and
the current depth) for non-tail subcalls and the marker-producing tail
mode for tail calls. -/
def opt_loop : Nat → Nat → OptRes → M SVal
  | _, _, .value v => M.pure v
  | 0, _, .evaluate _ _ => fun _ => .timeout
  | f + 1, d, .evaluate e env =>
    M.bind
      (scheme_eval_comb (opt_eval_with (opt_loop f) d) opt_eval_tail
        OptRes.value e env)
      (opt_loop f d)

/-- scheme_optimized_eval (scheme.py 367-393) as called externally
(tail=False): enter the evaluator with the full driving loop. -/
def scheme_optimized_eval (fuel depth : Nat) (expr : SVal) (env : Nat) :
    M SVal :=
  opt_eval_with (opt_loop fuel) depth expr env

/-- create_global_frame (scheme.py 473) restricted to the embedded
primitive table; the REPL-glue `eval`/`apply`/`load` primitives are out
of scope (spec section 1). -/
def global_frame : Frame :=
  { bindings := [("+", .prim .add false), ("-", .prim .sub false),
                 ("*", .prim .mul false), ("/", .prim .div false),
                 ("expt", .prim .expt false), ("=", .prim .numeq false)],
    parent := none }

/-- The store holding just the global frame. -/
def global_store : Store := [global_frame]

/-! ## The tail-recursive counting loop (claim C2)

The program is
`(define (loop n) (if (= n 0) 0 (let ((m (- n 1))) (loop m))))`,
a let-expressed tail-recursive counting loop: the `if` branch, the `let`
body and the procedure body are all tail positions, so the optimized
evaluator runs the whole countdown inside one driving loop at constant
host recursion depth. -/

/-- The test expression `(= n 0)`. -/
def test_expr : SVal :=
  .pair (.sym ("=")) (.pair (.sym ("n")) (.pair (.num (.i 0)) .nil))

/-- The decrement expression `(- n 1)`. -/
def dec_expr : SVal :=
  .pair (.sym ("-")) (.pair (.sym ("n")) (.pair (.num (.i 1)) .nil))

/-- The recursive call `(loop m)`. -/
def call_m : SVal := .pair (.sym ("loop")) (.pair (.sym ("m")) .nil)

/-- The tail position of the loop body,
`(let ((m (- n 1))) (loop m))`. -/
def loop_letE : SVal :=
  .pair (.sym ("let"))
    (.pair (.pair (.pair (.sym ("m")) (.pair dec_expr .nil)) .nil)
      (.pair call_m .nil))

/-- The loop procedure's body, `(if (= n 0) 0 (let ((m (- n 1))) (loop m)))`. -/
def loop_body : SVal :=
  .pair (.sym ("if"))
    (.pair test_expr (.pair (.num (.i 0)) (.pair loop_letE .nil)))

/-- The define form
`(define (loop n) (if (= n 0) 0 (let ((m (- n 1))) (loop m))))`. -/
def loop_define : SVal :=
  .pair (.sym ("define"))
    (.pair (.pair (.sym ("loop")) (.pair (.sym ("n")) .nil))
      (.pair loop_body .nil))

/-- The LambdaProcedure the define form builds, closing over the global
frame. -/
def loop_procedure : SVal :=
  .lambdaP (.pair (.sym ("n")) .nil) (.pair loop_body .nil) 0

/-- The global frame after the define. -/
def loop_global : Frame :=
  { bindings := global_frame.bindings ++ [("loop", loop_procedure)],
    parent := none }

/-- The store after the define. -/
def loop_store : Store := [loop_global]

/-- The call `(loop n)`. -/
def loop_call (n : Nat) : SVal :=
  .pair (.sym ("loop")) (.pair (.num (.i (n : Int))) .nil)

/-- A call frame of the loop procedure holding the counter. -/
def loop_count_frame (j : Nat) : Frame :=
  { bindings := [("n", .num (.i (j : Int)))], parent := some 0 }

/-- The expression `(let ((a 1) (b 2)) (+ a b))` (claim C5). -/
def let_example : SVal :=
  .pair (.sym ("let"))
    (.pair
      (.pair (.pair (.sym ("a")) (.pair (.num (.i 1)) .nil))
        (.pair (.pair (.sym ("b")) (.pair (.num (.i 2)) .nil)) .nil))
      (.pair
        (.pair (.sym ("+")) (.pair (.sym ("a")) (.pair (.sym ("b")) .nil)))
        .nil))

/-- The expression `(lambda (x y) x)` (claim C8). -/
def lam_xy : SVal :=
  .pair (.sym ("lambda"))
    (.pair (.pair (.sym ("x")) (.pair (.sym ("y")) .nil))
      (.pair (.sym ("x")) .nil))

/-- The under-supplied call `((lambda (x y) x) 1)` (claim C8). -/
def arity_example : SVal := .pair lam_xy (.pair (.num (.i 1)) .nil)

/-- The well-supplied call `((lambda (x y) x) 1 2)` (claim C8). -/
def call_example : SVal :=
  .pair lam_xy (.pair (.num (.i 1)) (.pair (.num (.i 2)) .nil))

@[simp]
theorem EvalRes.bindR_ok {α β : Type} (a : α) (st : Store) (k : α → M β) :
    (EvalRes.ok a st).bindR k = k a st := rfl

@[simp]
theorem EvalRes.bindR_err {α β : Type} (e : SErr) (k : α → M β) :
    (EvalRes.err e).bindR k = EvalRes.err e := rfl

@[simp]
theorem EvalRes.bindR_timeout {α β : Type} (k : α → M β) :
    (EvalRes.timeout : EvalRes α).bindR k = EvalRes.timeout := rfl

@[simp]
theorem EvalRes.bindR_overflow {α β : Type} (k : α → M β) :
    (EvalRes.overflow : EvalRes α).bindR k = EvalRes.overflow := rfl

@[simp]
theorem M.bind_apply {α β : Type} (m : M α) (k : α → M β) (st : Store) :
    M.bind m k st = (m st).bindR k := rfl

theorem EvalRes.bindR_assoc {α β γ : Type} (r : EvalRes α) (k : α → M β)
    (h : β → M γ) :
    (r.bindR k).bindR h = r.bindR (fun a => M.bind (k a) h) := by
  cases r <;> rfl

@[simp]
theorem M.pure_apply {α : Type} (a : α) (st : Store) :
    M.pure a st = .ok a st := rfl

@[simp]
theorem M.err_apply {α : Type} (e : SErr) (st : Store) :
    (M.err e : M α) st = .err e := rfl

@[simp]
theorem M.chk_ok {α : Type} (k : M α) : M.chk (.ok ()) k = k := rfl

@[simp]
theorem M.chk_err {α : Type} (e : SErr) (k : M α) :
    M.chk (.error e) k = M.err e := rfl

/-! ## Equivalence of the two evaluators (claim C1)

The proof is by induction on fuel.  Each special-form handler is shared
between the evaluators up to its `ev`/`evt`/`ret` instantiation, so one
transport lemma per handler suffices: running the optimized
instantiation and feeding the result to the driving loop `k` equals
running the naive instantiation, given that (i) the two non-tail
evaluators agree, (ii) feeding a tail-mode result to `k` is the naive
evaluation, and (iii) `k` returns plain values unchanged. -/

theorem opt_loop_value (f d : Nat) (v : SVal) :
    opt_loop f d (.value v) = M.pure v := by
  cases f <;> rfl

/-- Transport for `M.ofExcept` (the pure handlers quote, lambda, mu). -/
theorem ofExcept_agree (c : Except SErr SVal) (k : OptRes → M SVal)
    (hret : ∀ v st, k (.value v) st = .ok v st) (st : Store) :
    M.bind (M.ofExcept c OptRes.value) k st = M.ofExcept c id st := by
  cases c <;> simp [M.ofExcept, hret]

/-- Transport for eval_all. -/
theorem eval_all_agree (evO evN : SVal → Nat → M SVal)
    (evtO : SVal → Nat → M OptRes) (k : OptRes → M SVal)
    (hev : ∀ e env st, evO e env st = evN e env st)
    (htail : ∀ e env st, M.bind (evtO e env) k st = evN e env st)
    (hret : ∀ v st, k (.value v) st = .ok v st) :
    ∀ (es : SVal) (env : Nat) (st : Store),
      M.bind (eval_all evO evtO OptRes.value es env) k st =
        eval_all evN evN id es env st := by
  intro es
  induction es
  case pair e rest ih1 ih2 =>
    intro env st
    cases rest
    case nil => simpa [eval_all] using htail e env st
    all_goals
      simp only [eval_all, M.bind_apply, EvalRes.bindR_assoc]
      rw [hev]
      cases evN e env st with
      | ok a st2 =>
        simpa only [EvalRes.bindR_ok, M.bind_apply] using ih2 env st2
      | err e2 => rfl
      | timeout => rfl
      | overflow => rfl
  all_goals intro env st
  all_goals simp [eval_all, M.pure, M.err, hret]

/-- Transport for do_and_form. -/
theorem do_and_form_agree (evO evN : SVal → Nat → M SVal)
    (evtO : SVal → Nat → M OptRes) (k : OptRes → M SVal)
    (hev : ∀ e env st, evO e env st = evN e env st)
    (htail : ∀ e env st, M.bind (evtO e env) k st = evN e env st)
    (hret : ∀ v st, k (.value v) st = .ok v st) :
    ∀ (es : SVal) (env : Nat) (st : Store),
      M.bind (do_and_form evO evtO OptRes.value es env) k st =
        do_and_form evN evN id es env st := by
  intro es
  induction es
  case pair e rest ih1 ih2 =>
    intro env st
    cases rest
    case nil => simpa [do_and_form] using htail e env st
    all_goals
      simp only [do_and_form, M.bind_apply, EvalRes.bindR_assoc]
      rw [hev]
      cases evN e env st with
      | ok a st2 =>
        simp only [EvalRes.bindR_ok]
        cases hst : scheme_true a with
        | true => simpa only [hst, Bool.not_true, if_neg, ite_false,
            M.bind_apply] using ih2 env st2
        | false => simp [hst, M.pure, hret]
      | err e2 => rfl
      | timeout => rfl
      | overflow => rfl
  all_goals intro env st
  all_goals simp [do_and_form, M.pure, M.err, hret]

/-- Transport for do_or_form. -/
theorem do_or_form_agree (evO evN : SVal → Nat → M SVal)
    (evtO : SVal → Nat → M OptRes) (k : OptRes → M SVal)
    (hev : ∀ e env st, evO e env st = evN e env st)
    (htail : ∀ e env st, M.bind (evtO e env) k st = evN e env st)
    (hret : ∀ v st, k (.value v) st = .ok v st) :
    ∀ (es : SVal) (env : Nat) (st : Store),
      M.bind (do_or_form evO evtO OptRes.value es env) k st =
        do_or_form evN evN id es env st := by
  intro es
  induction es
  case pair e rest ih1 ih2 =>
    intro env st
    cases rest
    case nil => simpa [do_or_form] using htail e env st
    all_goals
      simp only [do_or_form, M.bind_apply, EvalRes.bindR_assoc]
      rw [hev]
      cases evN e env st with
      | ok a st2 =>
        simp only [EvalRes.bindR_ok]
        cases hst : scheme_true a with
        | true => simp [hst, M.pure, hret]
        | false => simpa only [hst, ite_false, M.bind_apply] using ih2 env st2
      | err e2 => rfl
      | timeout => rfl
      | overflow => rfl
  all_goals intro env st
  all_goals simp [do_or_form, M.pure, M.err, hret]

/-- The operand map is identical under agreeing evaluators. -/
theorem eval_args_agree (evO evN : SVal → Nat → M SVal)
    (hev : ∀ e env st, evO e env st = evN e env st) :
    ∀ (es : SVal) (env : Nat) (st : Store),
      eval_args evO es env st = eval_args evN es env st := by
  intro es
  induction es
  case pair e rest ih1 ih2 =>
    intro env st
    simp only [eval_args, M.bind_apply]
    rw [hev]
    cases evN e env st with
    | ok a st2 => simp only [EvalRes.bindR_ok, M.bind_apply, ih2 env st2]
    | err e2 => rfl
    | timeout => rfl
    | overflow => rfl
  all_goals intro env st
  all_goals rfl

/-- The let binding loop is identical under agreeing evaluators. -/
theorem make_let_go_agree (evO evN : SVal → Nat → M SVal)
    (hev : ∀ e env st, evO e env st = evN e env st) :
    ∀ (bs : SVal) (env le : Nat) (st : Store),
      make_let_go evO bs env le st = make_let_go evN bs env le st := by
  intro bs
  induction bs
  case pair b rest ih1 ih2 =>
    intro env le st
    simp only [make_let_go]
    cases listLen b with
    | none => rfl
    | some n =>
      simp only []
      by_cases hn : n = 2
      · simp only [hn]
        rw [if_neg (by simp), if_neg (by simp)]
        cases check_formals (.pair b.fst .nil) with
        | error e => rfl
        | ok u =>
          simp only [M.chk, M.bind_apply]
          rw [hev]
          cases evN (nthD b 1) env st with
          | ok v st2 => simpa only [EvalRes.bindR_ok] using ih2 env le _
          | err e2 => rfl
          | timeout => rfl
          | overflow => rfl
      · simp [hn]
  all_goals intro env le st
  all_goals rfl

/-- make_let_frame is identical under agreeing evaluators. -/
theorem make_let_frame_agree (evO evN : SVal → Nat → M SVal)
    (hev : ∀ e env st, evO e env st = evN e env st)
    (bs : SVal) (env : Nat) (st : Store) :
    make_let_frame evO bs env st = make_let_frame evN bs env st := by
  unfold make_let_frame
  by_cases hl : scheme_listp bs
  · simp only [hl, Bool.not_true, if_neg]
    cases make_child_frame st env .nil .nil <;>
      simp [EvalRes.bindR, make_let_go_agree evO evN hev]
  · simp [hl]

/-- Transport for do_if_form. -/
theorem do_if_form_agree (evO evN : SVal → Nat → M SVal)
    (evtO : SVal → Nat → M OptRes) (k : OptRes → M SVal)
    (hev : ∀ e env st, evO e env st = evN e env st)
    (htail : ∀ e env st, M.bind (evtO e env) k st = evN e env st)
    (hret : ∀ v st, k (.value v) st = .ok v st)
    (es : SVal) (env : Nat) (st : Store) :
    M.bind (do_if_form evO evtO OptRes.value es env) k st =
      do_if_form evN evN id es env st := by
  unfold do_if_form
  cases check_form es 2 (some 3) with
  | error e => simp [M.chk, M.err]
  | ok u =>
    simp only [M.chk, M.bind_apply, EvalRes.bindR_assoc]
    rw [hev]
    cases evN (nthD es 0) env st with
    | ok t st2 =>
      simp only [EvalRes.bindR_ok]
      cases hst : scheme_true t with
      | true => simpa only [hst, if_true] using htail (nthD es 1) env st2
      | false =>
        simp only [hst, Bool.false_eq_true, if_false]
        by_cases hl : listLen es = some 2
        · simp [hl, M.pure, hret]
        · simpa only [hl, if_false] using htail (nthD es 2) env st2
    | err e2 => rfl
    | timeout => rfl
    | overflow => rfl

/-- Transport for do_define_form. -/
theorem do_define_form_agree (evO evN : SVal → Nat → M SVal)
    (k : OptRes → M SVal)
    (hev : ∀ e env st, evO e env st = evN e env st)
    (hret : ∀ v st, k (.value v) st = .ok v st)
    (es : SVal) (env : Nat) (st : Store) :
    M.bind (do_define_form evO OptRes.value es env) k st =
      do_define_form evN id es env st := by
  unfold do_define_form
  cases check_form es 2 none with
  | error e => simp [M.chk, M.err]
  | ok u =>
    simp only [M.chk]
    cases htg : nthD es 0 with
    | sym s =>
      cases check_form es 2 (some 2) with
      | error e => simp [M.chk, M.err]
      | ok u2 =>
        simp only [M.chk, M.bind_apply, EvalRes.bindR_assoc]
        rw [hev]
        cases evN (nthD es 1) env st <;> simp [EvalRes.bindR, hret]
    | pair tf targs =>
      cases tf
      case sym s =>
        cases hdlf : do_lambda_form (.pair targs es.snd) env <;>
          simp [hdlf, M.bind_apply, EvalRes.bindR, hret]
      all_goals simp [M.err]
    | _ => simp [M.err]

/-- Transport for do_begin_form. -/
theorem do_begin_form_agree (evO evN : SVal → Nat → M SVal)
    (evtO : SVal → Nat → M OptRes) (k : OptRes → M SVal)
    (hev : ∀ e env st, evO e env st = evN e env st)
    (htail : ∀ e env st, M.bind (evtO e env) k st = evN e env st)
    (hret : ∀ v st, k (.value v) st = .ok v st)
    (es : SVal) (env : Nat) (st : Store) :
    M.bind (do_begin_form evO evtO OptRes.value es env) k st =
      do_begin_form evN evN id es env st := by
  unfold do_begin_form
  cases check_form es 1 none with
  | error e => simp [M.chk, M.err]
  | ok u => simpa only [M.chk] using
      eval_all_agree evO evN evtO k hev htail hret es env st

/-- Transport for the cond clause body dispatch. -/
theorem cond_body_agree (evO evN : SVal → Nat → M SVal)
    (evtO : SVal → Nat → M OptRes) (k : OptRes → M SVal)
    (hev : ∀ e env st, evO e env st = evN e env st)
    (htail : ∀ e env st, M.bind (evtO e env) k st = evN e env st)
    (hret : ∀ v st, k (.value v) st = .ok v st)
    (clause test : SVal) (env : Nat) (st : Store) :
    M.bind (cond_body evO evtO OptRes.value clause test env) k st =
      cond_body evN evN id clause test env st := by
  unfold cond_body
  cases hsnd : clause.snd
  case nil => simp [M.pure, hret]
  case pair b rest =>
    cases rest
    case nil => exact htail b env st
    all_goals exact eval_all_agree evO evN evtO k hev htail hret _ env st
  all_goals exact eval_all_agree evO evN evtO k hev htail hret _ env st

/-- Transport for do_cond_form. -/
theorem do_cond_form_agree (evO evN : SVal → Nat → M SVal)
    (evtO : SVal → Nat → M OptRes) (k : OptRes → M SVal)
    (hev : ∀ e env st, evO e env st = evN e env st)
    (htail : ∀ e env st, M.bind (evtO e env) k st = evN e env st)
    (hret : ∀ v st, k (.value v) st = .ok v st) :
    ∀ (cs : SVal) (env : Nat) (st : Store),
      M.bind (do_cond_form evO evtO OptRes.value cs env) k st =
        do_cond_form evN evN id cs env st := by
  intro cs
  induction cs
  case pair clause rest ih1 ih2 =>
    intro env st
    simp only [do_cond_form]
    cases check_form clause 1 none with
    | error e => simp [M.chk, M.err]
    | ok u =>
      simp only [M.chk]
      by_cases hel : clause.fst == .sym ("else")
      · simp only [hel, if_true]
        by_cases hrest : rest ≠ SVal.nil
        · simp [hrest, M.err]
        · simp only [hrest, if_false]
          by_cases hb : clause.snd == SVal.nil
          · simp [hb, M.err]
          · simpa only [hb, if_false] using
              cond_body_agree evO evN evtO k hev htail hret clause
                (.bool true) env st
      · simp only [hel, Bool.false_eq_true, if_false, M.bind_apply,
          EvalRes.bindR_assoc]
        rw [hev]
        cases evN clause.fst env st with
        | ok t st2 =>
          simp only [EvalRes.bindR_ok]
          cases hst : scheme_true t with
          | true => simpa only [hst, if_true, M.bind_apply] using
              cond_body_agree evO evN evtO k hev htail hret clause t env st2
          | false => simpa only [hst, Bool.false_eq_true, if_false,
              M.bind_apply] using ih2 env st2
        | err e2 => rfl
        | timeout => rfl
        | overflow => rfl
  all_goals intro env st
  all_goals simp [do_cond_form, M.pure, M.err, hret]

/-- Transport for scheme_apply. -/
theorem scheme_apply_agree (evO evN : SVal → Nat → M SVal)
    (evtO : SVal → Nat → M OptRes) (k : OptRes → M SVal)
    (hev : ∀ e env st, evO e env st = evN e env st)
    (htail : ∀ e env st, M.bind (evtO e env) k st = evN e env st)
    (hret : ∀ v st, k (.value v) st = .ok v st)
    (procedure args : SVal) (env : Nat) (st : Store) :
    M.bind (scheme_apply evO evtO OptRes.value procedure args env) k st =
      scheme_apply evN evN id procedure args env st := by
  unfold scheme_apply
  cases procedure
  case prim p useEnv =>
    simp only [M.bind_apply, EvalRes.bindR_assoc]
    cases apply_primitive p useEnv args st <;>
      simp [EvalRes.bindR, M.pure, hret]
  case lambdaP formals body penv =>
    simp only [M.bind_apply, EvalRes.bindR_assoc]
    cases make_call_frame (.lambdaP formals body penv) args env st with
    | ok ne st2 => simpa only [EvalRes.bindR_ok, M.bind_apply] using
        eval_all_agree evO evN evtO k hev htail hret body ne st2
    | err e2 => rfl
    | timeout => rfl
    | overflow => rfl
  case muP formals body =>
    simp only [M.bind_apply, EvalRes.bindR_assoc]
    cases make_call_frame (.muP formals body) args env st with
    | ok ne st2 => simpa only [EvalRes.bindR_ok, M.bind_apply] using
        eval_all_agree evO evN evtO k hev htail hret body ne st2
    | err e2 => rfl
    | timeout => rfl
    | overflow => rfl
  all_goals simp [M.err]

/-- Transport for do_let_form. -/
theorem do_let_form_agree (evO evN : SVal → Nat → M SVal)
    (evtO : SVal → Nat → M OptRes) (k : OptRes → M SVal)
    (hev : ∀ e env st, evO e env st = evN e env st)
    (htail : ∀ e env st, M.bind (evtO e env) k st = evN e env st)
    (hret : ∀ v st, k (.value v) st = .ok v st)
    (es : SVal) (env : Nat) (st : Store) :
    M.bind (do_let_form evO evtO OptRes.value es env) k st =
      do_let_form evN evN id es env st := by
  unfold do_let_form
  cases check_form es 2 none with
  | error e => simp [M.chk, M.err]
  | ok u =>
    simp only [M.chk, M.bind_apply, EvalRes.bindR_assoc]
    rw [make_let_frame_agree evO evN hev]
    cases make_let_frame evN es.fst env st with
    | ok le st2 => simpa only [EvalRes.bindR_ok, M.bind_apply] using
        eval_all_agree evO evN evtO k hev htail hret es.snd le st2
    | err e2 => rfl
    | timeout => rfl
    | overflow => rfl

/-- Transport for the SPECIAL_FORMS dispatch. -/
theorem do_special_agree (evO evN : SVal → Nat → M SVal)
    (evtO : SVal → Nat → M OptRes) (k : OptRes → M SVal)
    (hev : ∀ e env st, evO e env st = evN e env st)
    (htail : ∀ e env st, M.bind (evtO e env) k st = evN e env st)
    (hret : ∀ v st, k (.value v) st = .ok v st)
    (name : String) (rest : SVal) (env : Nat) (st : Store) :
    M.bind (do_special evO evtO OptRes.value name rest env) k st =
      do_special evN evN id name rest env st := by
  unfold do_special
  by_cases h1 : name = "and"
  · subst h1; exact do_and_form_agree evO evN evtO k hev htail hret rest env st
  by_cases h2 : name = "begin"
  · subst h2; exact do_begin_form_agree evO evN evtO k hev htail hret rest env st
  by_cases h3 : name = "cond"
  · subst h3; exact do_cond_form_agree evO evN evtO k hev htail hret rest env st
  by_cases h4 : name = "define"
  · subst h4; exact do_define_form_agree evO evN k hev hret rest env st
  by_cases h5 : name = "if"
  · subst h5; exact do_if_form_agree evO evN evtO k hev htail hret rest env st
  by_cases h6 : name = "lambda"
  · subst h6; exact ofExcept_agree (do_lambda_form rest env) k hret st
  by_cases h7 : name = "let"
  · subst h7; exact do_let_form_agree evO evN evtO k hev htail hret rest env st
  by_cases h8 : name = "or"
  · subst h8; exact do_or_form_agree evO evN evtO k hev htail hret rest env st
  by_cases h9 : name = "quote"
  · subst h9; exact ofExcept_agree (do_quote_form rest) k hret st
  by_cases h10 : name = "mu"
  · subst h10; exact ofExcept_agree (do_mu_form rest) k hret st
  simp [h1, h2, h3, h4, h5, h6, h7, h8, h9, h10, M.err]

/-- Transport for the combination step. -/
theorem scheme_eval_comb_agree (evO evN : SVal → Nat → M SVal)
    (evtO : SVal → Nat → M OptRes) (k : OptRes → M SVal)
    (hev : ∀ e env st, evO e env st = evN e env st)
    (htail : ∀ e env st, M.bind (evtO e env) k st = evN e env st)
    (hret : ∀ v st, k (.value v) st = .ok v st)
    (expr : SVal) (env : Nat) (st : Store) :
    M.bind (scheme_eval_comb evO evtO OptRes.value expr env) k st =
      scheme_eval_comb evN evN id expr env st := by
  cases expr
  case pair first rest =>
    simp only [scheme_eval_comb]
    by_cases hl : scheme_listp (SVal.pair first rest) = true
    case pos =>
      have hc : ¬ ¬ scheme_listp (SVal.pair first rest) = true := fun h => h hl
      rw [if_neg hc, if_neg hc]
      cases hs : is_special_form first with
      | true =>
        rw [if_pos rfl, if_pos rfl]
        exact do_special_agree evO evN evtO k hev htail hret
          (symName first) rest env st
      | false =>
        have hf : ¬ (false = true) := by simp
        rw [if_neg hf, if_neg hf]
        simp only [M.bind_apply, EvalRes.bindR_assoc]
        rw [hev]
        cases evN first env st with
        | ok procedure st2 =>
          simp only [EvalRes.bindR_ok, M.bind_apply, EvalRes.bindR_assoc]
          rw [eval_args_agree evO evN hev]
          cases eval_args evN rest env st2 with
          | ok args st3 =>
            simpa only [EvalRes.bindR_ok, M.bind_apply] using
              scheme_apply_agree evO evN evtO k hev htail hret procedure
                args env st3
          | err e2 => rfl
          | timeout => rfl
          | overflow => rfl
        | err e2 => rfl
        | timeout => rfl
        | overflow => rfl
    case neg =>
      have hc : ¬ scheme_listp (SVal.pair first rest) = true := hl
      rw [if_pos hc, if_pos hc]
      simp [M.err]
  all_goals simp [scheme_eval_comb, scheme_listp, M.err, EvalRes.bindR]

/-- Pointwise agreement of the optimized evaluator's non-tail mode with
the naive evaluator at the same fuel, given the (inductive) agreement of
the driving loop. -/
theorem opt_eval_with_agree (f d : Nat) (hd : f < d)
    (ih : ∀ d2, f ≤ d2 → ∀ e env st,
      M.bind (opt_eval_tail e env) (opt_loop f d2) st = scheme_eval f e env st)
    (e : SVal) (env : Nat) (st : Store) :
    opt_eval_with (opt_loop f) d e env st = scheme_eval f e env st := by
  obtain ⟨d2, rfl⟩ : ∃ d2, d = d2 + 1 := ⟨d - 1, by omega⟩
  cases e
  case sym s => simp only [opt_eval_with, scheme_eval]
  all_goals
    simp only [opt_eval_with]
    split
    next h2 =>
      simp only [scheme_eval]
      rw [if_pos h2]
    next h2 =>
      rw [← ih d2 (by omega) _ env st]
      simp only [opt_eval_tail, M.bind_apply]
      rw [if_neg h2]
      rfl

/-- The driving loop applied to a tail-mode result agrees with the naive
evaluator, at every fuel level and any depth budget of at least the
fuel.  This is the heart of the equivalence: a tail-position Evaluate
marker, unwrapped by the loop, computes exactly what the naive
evaluator's recursive call computes. -/
theorem tail_loop_agree :
    ∀ (f d : Nat), f ≤ d → ∀ (e : SVal) (env : Nat) (st : Store),
      M.bind (opt_eval_tail e env) (opt_loop f d) st =
        scheme_eval f e env st := by
  intro f
  induction f with
  | zero =>
    intro d hd e env st
    cases e
    case sym s =>
      simp only [opt_eval_tail, scheme_eval, M.bind_apply]
      cases frame_lookup st env s <;>
        simp [EvalRes.bindR, opt_loop_value, M.pure]
    all_goals
      simp only [opt_eval_tail, M.bind_apply]
      split
      next h2 =>
        simp only [EvalRes.bindR_ok, opt_loop_value, M.pure_apply, scheme_eval]
        rw [if_pos h2]
      next h2 =>
        simp only [EvalRes.bindR_ok, opt_loop, scheme_eval]
        rw [if_neg h2]
  | succ f ih =>
    intro d hd e env st
    cases e
    case sym s =>
      simp only [opt_eval_tail, scheme_eval, M.bind_apply]
      cases frame_lookup st env s <;>
        simp [EvalRes.bindR, opt_loop_value, M.pure]
    all_goals
      simp only [opt_eval_tail, M.bind_apply]
      split
      next h2 =>
        simp only [EvalRes.bindR_ok, opt_loop_value, M.pure_apply, scheme_eval]
        rw [if_pos h2]
      next h2 =>
        simp only [EvalRes.bindR_ok, opt_loop]
        rw [scheme_eval_comb_agree (opt_eval_with (opt_loop f) d)
          (scheme_eval f) opt_eval_tail (opt_loop f d)
          (opt_eval_with_agree f d (by omega) (fun d2 hd2 => ih d2 hd2))
          (ih d (by omega)) (fun v st2 => by simp [opt_loop_value, M.pure])]
        simp only [scheme_eval]
        rw [if_neg h2]

/-- C1: for every fuel level, expression, environment and store, the
trampolined evaluator `scheme_optimized_eval` (given any host stack
budget exceeding the fuel) computes exactly what the naive
directly-recursive evaluator `scheme_eval` computes — the same value and
final store, or the same SchemeError, over all expression shapes
(symbols, self-evaluating atoms, special forms, and combinations); in
particular they agree whenever the naive evaluation terminates (some
fuel suffices for it). -/
theorem scheme_eval_agrees_with_optimized (fuel depth : Nat)
    (h : fuel < depth) (expr : SVal) (env : Nat) (st : Store) :
    scheme_eval fuel expr env st = scheme_optimized_eval fuel depth expr env st :=
  (opt_eval_with_agree fuel depth h
    (fun d2 hd2 => tail_loop_agree fuel d2 hd2) expr env st).symm

/-- Witness for C1 at a concrete input: evaluating `(+ 2 2)` in the
global frame with fuel 5 and depth 6. -/
theorem scheme_eval_agrees_with_optimized_witness :
    (5 : Nat) < 6 ∧
      scheme_eval 5
          (.pair (.sym ("+")) (.pair (.num (.i 2)) (.pair (.num (.i 2)) .nil)))
          0 global_store =
        scheme_optimized_eval 5 6
          (.pair (.sym ("+")) (.pair (.num (.i 2)) (.pair (.num (.i 2)) .nil)))
          0 global_store :=
  ⟨by omega,
   scheme_eval_agrees_with_optimized 5 6 (by omega)
     (.pair (.sym ("+")) (.pair (.num (.i 2)) (.pair (.num (.i 2)) .nil)))
     0 global_store⟩

/-- Element 0 of a store survives appending frames. -/
theorem getElem0_append (st : Store) (l : List Frame) (fr : Frame)
    (h : st[0]? = some fr) : (st ++ l)[0]? = some fr := by
  cases st with
  | nil => simp at h
  | cons a t => simpa using h

/-- The frame just appended sits at the old length. -/
theorem getElem_append_len (st : Store) (fr : Frame) (l : List Frame) :
    (st ++ fr :: l)[st.length]? = some fr := by
  rw [List.getElem?_append_right (Nat.le_refl _)]
  simp

/-- The second appended frame sits one past the old length. -/
theorem getElem_append_len1 (st : Store) (f1 f2 : Frame) (l : List Frame) :
    (st ++ f1 :: f2 :: l)[st.length + 1]? = some f2 := by
  rw [List.getElem?_append_right (by omega)]
  simp

/-- The third appended frame sits two past the old length. -/
theorem getElem_append_len2 (st : Store) (f1 f2 f3 : Frame) (l : List Frame) :
    (st ++ f1 :: f2 :: f3 :: l)[st.length + 2]? = some f3 := by
  rw [List.getElem?_append_right (by omega)]
  simp

/-- Overwriting the frame at the old length. -/
theorem set_append_len (st : Store) (fr fr2 : Frame) (l : List Frame) :
    (st ++ fr :: l).set st.length fr2 = st ++ fr2 :: l := by
  induction st with
  | nil => simp
  | cons a t ih => simp [List.set, ih]

/-- Overwriting the frame one past the old length. -/
theorem set_append_len1 (st : Store) (f1 f2 g : Frame) (l : List Frame) :
    (st ++ f1 :: f2 :: l).set (st.length + 1) g = st ++ f1 :: g :: l := by
  induction st with
  | nil => simp [List.set]
  | cons a t ih =>
    simp only [List.cons_append, List.length_cons]
    rw [show t.length + 1 + 1 = (t.length + 1) + 1 from rfl]
    simp only [List.set]
    rw [ih]

/-- Overwriting the frame two past the old length. -/
theorem set_append_len2 (st : Store) (f1 f2 f3 g : Frame) (l : List Frame) :
    (st ++ f1 :: f2 :: f3 :: l).set (st.length + 2) g =
      st ++ f1 :: f2 :: g :: l := by
  induction st with
  | nil => simp [List.set]
  | cons a t ih =>
    simp only [List.cons_append, List.length_cons]
    rw [show t.length + 1 + 2 = (t.length + 2) + 1 from by ring]
    simp only [List.set]
    rw [ih]

/-- The lookup counter is irrelevant as long as it bounds the frame
index: the parent guard keeps every visited index below the previous
one, so a counter that starts at the index never runs out. -/
theorem frame_lookup_go_fuel (st : Store) (s : String) :
    ∀ id fuel fuel', id ≤ fuel → id ≤ fuel' →
      frame_lookup_go st s fuel id = frame_lookup_go st s fuel' id := by
  intro id
  induction id using Nat.strong_induction_on with
  | _ id ih =>
    intro fuel fuel' h h'
    rw [frame_lookup_go, frame_lookup_go]
    cases hfr : st[id]? with
    | none => rfl
    | some fr =>
      dsimp only
      cases hlk : fr.bindings.lookup s with
      | some v => rfl
      | none =>
        dsimp only
        cases hpar : fr.parent with
        | none => rfl
        | some p =>
          dsimp only
          by_cases hpid : p < id
          · obtain ⟨f, rfl⟩ : ∃ f, fuel = f + 1 := ⟨fuel - 1, by omega⟩
            obtain ⟨f2, rfl⟩ : ∃ f, fuel' = f + 1 := ⟨fuel' - 1, by omega⟩
            dsimp only
            rw [if_pos hpid, if_pos hpid]
            exact ih p hpid f f2 (by omega) (by omega)
          · cases fuel with
            | zero =>
              cases fuel' with
              | zero => rfl
              | succ f2 => dsimp only; rw [if_neg hpid]
            | succ f =>
              cases fuel' with
              | zero => dsimp only; rw [if_neg hpid]
              | succ f2 => dsimp only; rw [if_neg hpid, if_neg hpid]

/-- Unfolding one frame-lookup step that hits in the given frame. -/
theorem frame_lookup_hit (st : Store) (id : Nat) (fr : Frame)
    (hid : st[id]? = some fr) (s : String) (v : SVal)
    (hv : fr.bindings.lookup s = some v) :
    frame_lookup st id s = .ok v := by
  rw [frame_lookup, frame_lookup_go, hid]
  simp [hv]

/-- Unfolding one frame-lookup step that misses and defers to the
parent. -/
theorem frame_lookup_parent (st : Store) (id p : Nat) (fr : Frame)
    (hid : st[id]? = some fr) (s : String)
    (hmiss : fr.bindings.lookup s = none) (hp : fr.parent = some p)
    (hlt : p < id) :
    frame_lookup st id s = frame_lookup st p s := by
  cases id with
  | zero => omega
  | succ j =>
    rw [frame_lookup, frame_lookup_go, hid]
    simp only [hmiss, hp, hlt, if_pos hlt]
    exact frame_lookup_go_fuel st s p j p (by omega) (Nat.le_refl p)

set_option maxHeartbeats 2000000 in
theorem loop_test_run (j F : Nat) (st : Store) (h0 : st[0]? = some loop_global)
    (hlen : 1 ≤ st.length) :
    opt_eval_with (opt_loop (F+1)) 2 test_expr st.length
        (st ++ [loop_count_frame (j+1)]) =
      .ok (.bool false) (st ++ [loop_count_frame (j+1)]) := by
  have hA : (st ++ [loop_count_frame (j+1)])[st.length]? =
      some (loop_count_frame (j+1)) := getElem_append_len st _ []
  have h0A : (st ++ [loop_count_frame (j+1)])[0]? = some loop_global :=
    getElem0_append _ _ _ h0
  have hEq : frame_lookup (st ++ [loop_count_frame (j+1)]) st.length ("=") =
      .ok (.prim .numeq false) := by
    rw [frame_lookup_parent _ _ 0 _ hA _ (by simp [loop_count_frame]) rfl
      (by omega)]
    exact frame_lookup_hit _ _ _ h0A _ _ (by decide)
  have hN : frame_lookup (st ++ [loop_count_frame (j+1)]) st.length ("n") =
      .ok (.num (.i ((j+1 : Nat) : Int))) :=
    frame_lookup_hit _ _ _ hA _ _ (by simp [loop_count_frame, List.lookup])
  have htest : (((j : Rat) + 1) == (0 : Rat)) = false := by
    simp only [beq_eq_false_iff_ne, ne_eq]
    positivity
  simp [test_expr, opt_eval_with, opt_loop, scheme_eval_comb, scheme_listp,
    is_special_form, special_form_names, symName, opt_eval_tail, eval_args,
    scheme_apply, apply_primitive, prim_fn, scheme_eq, _check_nums,
    check_nums_go, toHostList, self_evaluating, scheme_atomp,
    scheme_booleanp, scheme_numberp, scheme_symbolp, scheme_nullp,
    scheme_stringp, hEq, hN, htest, PyNum.toQ, opt_loop_value, M.pure,
    M.bind, M.err, Except.bind, Except.pure]

set_option maxHeartbeats 2000000 in
theorem loop_dec_run (j F : Nat) (st : Store) (h0 : st[0]? = some loop_global)
    (hlen : 1 ≤ st.length) :
    opt_eval_with (opt_loop (F+1)) 2 dec_expr st.length
        (st ++ [loop_count_frame (j+1),
          { bindings := [], parent := some st.length }]) =
      .ok (.num (.i (j : Int)))
        (st ++ [loop_count_frame (j+1),
          { bindings := [], parent := some st.length }]) := by
  have hA : (st ++ [loop_count_frame (j+1),
      { bindings := [], parent := some st.length }])[st.length]? =
      some (loop_count_frame (j+1)) := getElem_append_len st _ _
  have h0A : (st ++ [loop_count_frame (j+1),
      { bindings := [], parent := some st.length }])[0]? = some loop_global :=
    getElem0_append _ _ _ h0
  have hSub : frame_lookup (st ++ [loop_count_frame (j+1),
      { bindings := [], parent := some st.length }]) st.length ("-") =
      .ok (.prim .sub false) := by
    rw [frame_lookup_parent _ _ 0 _ hA _ (by simp [loop_count_frame]) rfl
      (by omega)]
    exact frame_lookup_hit _ _ _ h0A _ _ (by decide)
  have hN : frame_lookup (st ++ [loop_count_frame (j+1),
      { bindings := [], parent := some st.length }]) st.length ("n") =
      .ok (.num (.i ((j+1 : Nat) : Int))) :=
    frame_lookup_hit _ _ _ hA _ _ (by simp [loop_count_frame, List.lookup])
  have hcast : ((j+1 : Nat) : Int) - 1 = (j : Int) := by omega
  simp [dec_expr, opt_eval_with, opt_loop, scheme_eval_comb, scheme_listp,
    is_special_form, special_form_names, symName, opt_eval_tail, eval_args,
    scheme_apply, apply_primitive, prim_fn, scheme_sub, _arith, arith_fold,
    pySubE, pySub, roundNorm, _check_nums, check_nums_go, toHostList,
    self_evaluating, scheme_atomp, scheme_booleanp, scheme_numberp,
    scheme_symbolp, scheme_nullp, scheme_stringp, hSub, hN, hcast,
    opt_loop_value, M.pure, M.bind, M.err, Except.bind, Except.pure,
    Bind.bind, Pure.pure]

set_option maxHeartbeats 2000000 in
theorem loop_test_run0 (F : Nat) (st : Store) (h0 : st[0]? = some loop_global)
    (hlen : 1 ≤ st.length) :
    opt_eval_with (opt_loop (F+1)) 2 test_expr st.length
        (st ++ [loop_count_frame 0]) =
      .ok (.bool true) (st ++ [loop_count_frame 0]) := by
  have hA : (st ++ [loop_count_frame 0])[st.length]? =
      some (loop_count_frame 0) := getElem_append_len st _ []
  have h0A : (st ++ [loop_count_frame 0])[0]? = some loop_global :=
    getElem0_append _ _ _ h0
  have hEq : frame_lookup (st ++ [loop_count_frame 0]) st.length ("=") =
      .ok (.prim .numeq false) := by
    rw [frame_lookup_parent _ _ 0 _ hA _ (by simp [loop_count_frame]) rfl
      (by omega)]
    exact frame_lookup_hit _ _ _ h0A _ _ (by decide)
  have hN : frame_lookup (st ++ [loop_count_frame 0]) st.length ("n") =
      .ok (.num (.i ((0 : Nat) : Int))) :=
    frame_lookup_hit _ _ _ hA _ _ (by simp [loop_count_frame, List.lookup])
  simp [test_expr, opt_eval_with, opt_loop, scheme_eval_comb, scheme_listp,
    is_special_form, special_form_names, symName, opt_eval_tail, eval_args,
    scheme_apply, apply_primitive, prim_fn, scheme_eq, _check_nums,
    check_nums_go, toHostList, self_evaluating, scheme_atomp,
    scheme_booleanp, scheme_numberp, scheme_symbolp, scheme_nullp,
    scheme_stringp, hEq, hN, PyNum.toQ, opt_loop_value, M.pure, M.bind,
    M.err, Except.bind, Except.pure, Bind.bind, Pure.pure]

set_option maxHeartbeats 2000000 in
theorem loop_run_zero (st : Store) (h0 : st[0]? = some loop_global)
    (hlen : 1 ≤ st.length) :
    opt_loop 2 2 (.evaluate loop_body st.length)
        (st ++ [loop_count_frame 0]) =
      .ok (.num (.i 0)) (st ++ [loop_count_frame 0]) := by
  have htst : opt_eval_with (opt_loop 1) 2 test_expr st.length
      (st ++ [loop_count_frame 0]) =
      .ok (.bool true) (st ++ [loop_count_frame 0]) :=
    loop_test_run0 0 st h0 hlen
  rw [show (2 : Nat) = 1+1 from rfl, opt_loop]
  simp [loop_body, scheme_eval_comb, scheme_listp, is_special_form,
    special_form_names, symName, do_special, do_if_form, check_form,
    listLen, nthD, nth, M.chk, opt_eval_tail, htst, self_evaluating,
    scheme_atomp, scheme_booleanp, scheme_numberp, scheme_symbolp,
    scheme_nullp, scheme_stringp, scheme_true, opt_loop_value, M.pure,
    M.bind, M.err]

set_option maxHeartbeats 4000000 in
theorem loop_runs (j : Nat) :
    ∀ (st : Store), st[0]? = some loop_global → 1 ≤ st.length →
      ∃ st', opt_loop (3*j+2) 2 (.evaluate loop_body st.length)
          (st ++ [loop_count_frame j]) = .ok (.num (.i 0)) st' := by
  induction j with
  | zero =>
    intro st h0 hlen
    exact ⟨st ++ [loop_count_frame 0], loop_run_zero st h0 hlen⟩
  | succ j ih =>
    intro st h0 hlen
    obtain ⟨st', hih⟩ := ih
      (st ++ [loop_count_frame (j+1),
        { bindings := [("m", .num (.i (j : Int)))], parent := some st.length }])
      (getElem0_append _ _ _ h0) (by simp)
    refine ⟨st', ?_⟩
    simp only [List.append_assoc, List.cons_append, List.nil_append,
      List.length_append, List.length_cons, List.length_nil,
      Nat.zero_add, Nat.add_zero] at hih
    have htst : opt_eval_with (opt_loop (3*j+4)) 2 test_expr st.length
        (st ++ [loop_count_frame (j+1)]) =
        .ok (.bool false) (st ++ [loop_count_frame (j+1)]) :=
      loop_test_run j (3*j+3) st h0 hlen
    have hdec : opt_eval_with (opt_loop (3*j+3)) 2 dec_expr st.length
        (st ++ [loop_count_frame (j+1),
          { bindings := [], parent := some st.length }]) =
        .ok (.num (.i (j : Int)))
          (st ++ [loop_count_frame (j+1),
            { bindings := [], parent := some st.length }]) :=
      loop_dec_run j (3*j+2) st h0 hlen
    have htailLet : ∀ stX : Store, opt_eval_tail loop_letE st.length stX =
        .ok (.evaluate loop_letE st.length) stX := by
      intro stX
      simp [opt_eval_tail, loop_letE, self_evaluating, scheme_atomp,
        scheme_booleanp, scheme_numberp, scheme_symbolp, scheme_nullp,
        scheme_stringp]
    have htailm : ∀ stX : Store, opt_eval_tail call_m (st.length+1) stX =
        .ok (.evaluate call_m (st.length+1)) stX := by
      intro stX
      simp [opt_eval_tail, call_m, self_evaluating, scheme_atomp,
        scheme_booleanp, scheme_numberp, scheme_symbolp, scheme_nullp,
        scheme_stringp]
    have htailBody : ∀ (E : Nat) (stX : Store), opt_eval_tail loop_body E stX =
        .ok (.evaluate loop_body E) stX := by
      intro E stX
      simp [opt_eval_tail, loop_body, self_evaluating, scheme_atomp,
        scheme_booleanp, scheme_numberp, scheme_symbolp, scheme_nullp,
        scheme_stringp]
    -- iteration 1: the if form defers to the let expression
    rw [show 3*(j+1)+2 = ((3*j+2)+1+1)+1 from by ring, opt_loop]
    simp only [M.bind_apply]
    rw [show (3*j+2)+1+1 = 3*j+4 from by ring]
    simp [loop_body, scheme_eval_comb, scheme_listp, is_special_form,
      special_form_names, symName, do_special, do_if_form, check_form,
      listLen, nthD, nth, M.chk, htst, htailLet, self_evaluating,
      scheme_atomp, scheme_booleanp, scheme_numberp, scheme_symbolp,
      scheme_nullp, scheme_stringp, scheme_true, M.bind, M.pure, M.err]
    -- iteration 2: the let form allocates the binding frame and defers
    -- to the recursive call
    rw [show 3*j+4 = (3*j+3)+1 from by ring, opt_loop]
    simp only [M.bind_apply]
    rw [show (3*j+3 : Nat) = 3*j+3 from rfl]
    simp [loop_letE, scheme_eval_comb, scheme_listp, is_special_form,
      special_form_names, symName, do_special, do_let_form, check_form,
      listLen, nthD, nth, M.chk, make_let_frame, make_child_frame,
      bind_formals, toHostList, make_let_go, check_formals,
      check_formals_go, List.erase, SVal.fst, SVal.snd, hdec, frame_define,
      define_binding, getElem_append_len1, set_append_len1, eval_all,
      htailm, self_evaluating, scheme_atomp, scheme_booleanp,
      scheme_numberp, scheme_symbolp, scheme_nullp, scheme_stringp,
      M.bind, M.pure, M.err, -List.getElem?_eq_getElem]
    -- iteration 3: the recursive call builds the next count frame and
    -- defers to the procedure body
    have hC1 : (st ++ [loop_count_frame (j+1),
        { bindings := [("m", SVal.num (PyNum.i (j : Int)))],
          parent := some st.length }])[st.length + 1]? =
        some { bindings := [("m", SVal.num (PyNum.i (j : Int)))],
               parent := some st.length } := getElem_append_len1 st _ _ []
    have hA2 : (st ++ [loop_count_frame (j+1),
        { bindings := [("m", SVal.num (PyNum.i (j : Int)))],
          parent := some st.length }])[st.length]? =
        some (loop_count_frame (j+1)) := getElem_append_len st _ _
    have hMC : frame_lookup (st ++ [loop_count_frame (j+1),
        { bindings := [("m", SVal.num (PyNum.i (j : Int)))],
          parent := some st.length }]) (st.length + 1) "m" =
        .ok (.num (.i (j : Int))) :=
      frame_lookup_hit _ _ _ hC1 _ _ (by simp [List.lookup])
    have hLoopC : frame_lookup (st ++ [loop_count_frame (j+1),
        { bindings := [("m", SVal.num (PyNum.i (j : Int)))],
          parent := some st.length }]) (st.length + 1) "loop" =
        .ok loop_procedure := by
      rw [frame_lookup_parent _ _ st.length _ hC1 _ (by simp [List.lookup])
        rfl (by omega)]
      rw [frame_lookup_parent _ _ 0 _ hA2 _
        (by simp [loop_count_frame, List.lookup]) (by simp [loop_count_frame])
        (by omega)]
      exact frame_lookup_hit _ _ _ (getElem0_append _ _ _ h0) _ _ (by decide)
    have hfold : ({ bindings := [("n", SVal.num (PyNum.i (j : Int)))],
                    parent := some 0 } : Frame) = loop_count_frame j := by
      simp [loop_count_frame]
    rw [show 3*j+3 = (3*j+2)+1 from by ring, opt_loop]
    simp only [M.bind_apply]
    simp [call_m, scheme_eval_comb, scheme_listp, is_special_form,
      special_form_names, symName, opt_eval_with, eval_args, hMC, hLoopC,
      scheme_apply, loop_procedure, make_call_frame, make_child_frame,
      listLen, toHostList, bind_formals, frame_define, define_binding,
      getElem_append_len2, set_append_len2, eval_all, htailBody, hfold,
      self_evaluating, scheme_atomp, scheme_booleanp, scheme_numberp,
      scheme_symbolp, scheme_nullp, scheme_stringp, M.bind, M.pure, M.err,
      -List.getElem?_eq_getElem]
    exact hih

/-- The tail evaluation mode returns a deferred marker for any
non-atomic expression, without invoking any evaluator. -/
theorem opt_eval_tail_defers (e : SVal) (env : Nat) (st : Store)
    (hsym : scheme_symbolp e = false) (hse : self_evaluating e = false) :
    opt_eval_tail e env st = .ok (.evaluate e env) st := by
  cases e <;> simp_all [opt_eval_tail, scheme_symbolp]

/-- C2: every "last expression in sequence" site produces a deferred
Evaluate marker instead of recursively invoking the evaluator — the
shared sequence evaluator hands a non-atomic final expression to the
marker-producing tail mode, whatever the non-tail evaluator `ev` is —
and consequently the let-expressed tail-recursive counting loop
`(define (loop n) (if (= n 0) 0 (let ((m (- n 1))) (loop m))))` runs any
number of iterations inside the single driving loop at the constant host
evaluation-recursion depth 3, independent of the iteration count: the
define evaluates in the global frame, and for every n the call
`(loop n)` evaluates to 0 with fuel 3n+3 and depth budget 3. -/
theorem tail_sites_defer_and_loop_runs_at_constant_depth :
    (∀ (ev : SVal → Nat → M SVal) (e : SVal) (env : Nat) (st : Store),
      scheme_symbolp e = false → self_evaluating e = false →
        eval_all ev opt_eval_tail OptRes.value (.pair e .nil) env st =
          .ok (.evaluate e env) st) ∧
    scheme_optimized_eval 10 10 loop_define 0 global_store =
      .ok (.sym ("loop")) loop_store ∧
    (∀ n : Nat, ∃ st', scheme_optimized_eval (3*n+3) 3 (loop_call n) 0
        loop_store = .ok (.num (.i 0)) st') := by
  refine ⟨?_, ?_, ?_⟩
  · intro ev e env st hsym hse
    simp [eval_all, opt_eval_tail_defers e env st hsym hse]
  · decide
  · intro n
    have hloop : frame_lookup [loop_global] 0 ("loop") = .ok loop_procedure :=
      frame_lookup_hit _ _ _ rfl _ _ (by decide)
    have hfold : ({ bindings := [("n", SVal.num (PyNum.i (n : Int)))],
                    parent := some 0 } : Frame) = loop_count_frame n := by
      simp [loop_count_frame]
    have htailBody : ∀ (E : Nat) (stX : Store), opt_eval_tail loop_body E stX =
        .ok (.evaluate loop_body E) stX := by
      intro E stX
      simp [opt_eval_tail, loop_body, self_evaluating, scheme_atomp,
        scheme_booleanp, scheme_numberp, scheme_symbolp, scheme_nullp,
        scheme_stringp]
    obtain ⟨st', hrun⟩ := loop_runs n loop_store rfl (by decide)
    simp only [loop_store, List.length_singleton, List.singleton_append]
      at hrun
    refine ⟨st', ?_⟩
    simp only [scheme_optimized_eval, loop_store]
    rw [show (3:Nat)*n+3 = (3*n+2)+1 from by ring]
    have hstep : opt_eval_with (opt_loop ((3*n+2)+1)) 3 (loop_call n) 0
        [loop_global] =
        opt_loop ((3*n+2)+1) 2 (.evaluate (loop_call n) 0) [loop_global] := by
      simp [opt_eval_with, loop_call, self_evaluating, scheme_atomp,
        scheme_booleanp, scheme_numberp, scheme_symbolp, scheme_nullp,
        scheme_stringp]
    rw [hstep, opt_loop]
    simp only [M.bind_apply]
    simp [loop_call, scheme_eval_comb, scheme_listp, is_special_form,
      special_form_names, symName, opt_eval_with, hloop, eval_args,
      scheme_apply, loop_procedure, make_call_frame, make_child_frame,
      listLen, toHostList, bind_formals, frame_define, define_binding,
      eval_all, htailBody, hfold, self_evaluating, scheme_atomp,
      scheme_booleanp, scheme_numberp, scheme_symbolp, scheme_nullp,
      scheme_stringp, M.bind, M.pure, M.err, -List.getElem?_eq_getElem]
    exact hrun

/-- Witness for the hypotheses of the tail-deferral conjunct of C2:
the recursive call `(loop m)` in tail position becomes a marker. -/
theorem tail_sites_defer_witness :
    eval_all (scheme_eval 0) opt_eval_tail OptRes.value
        (.pair call_m .nil) 0 [] = .ok (.evaluate call_m 0) [] :=
  tail_sites_defer_and_loop_runs_at_constant_depth.1 (scheme_eval 0)
    call_m 0 [] (by decide) (by decide)

/-! ## Lambda formals validation (claim C3) -/

/-- C3: a lambda form with a duplicated formal, as in `(lambda (x x) x)`,
fails with a SchemeError, and a non-symbol element among the formals, as
in `(lambda (1) x)`, fails with a SchemeError; but a formals operand
that is not a proper list at all, as in `(lambda x x)`, is accepted and
returns a LambdaProcedure, contradicting the promised SyntaxError:
`check_formals` validates only under `if scheme_listp(formals):` and has
no else branch. -/
theorem lambda_formals_validation_gap :
    (do_lambda_form
        (.pair (.pair (.sym ("x")) (.pair (.sym ("x")) .nil))
          (.pair (.sym ("x")) .nil)) 0 =
      .error (.schemeError ("repeated symbol(s)") [])) ∧
    (do_lambda_form
        (.pair (.pair (.num (.i 1)) .nil) (.pair (.sym ("x")) .nil)) 0 =
      .error (.schemeError ("invalid scheme symbol") [.num (.i 1)])) ∧
    (do_lambda_form (.pair (.sym ("x")) (.pair (.sym ("x")) .nil)) 0 =
      .ok (.lambdaP (.sym ("x")) (.pair (.sym ("x")) .nil) 0)) :=
  ⟨rfl, rfl, rfl⟩

/-! ## cond semantics (claim C4) -/

/-- C4: the cond form, for either evaluator instantiation: an exhausted
clause list yields okay; a zero-element clause is a SchemeError; an else
clause that is not last, or whose body is empty, is a SchemeError; a
final else clause with a non-empty body dispatches its body with the
test value True; for a non-else clause the test is evaluated and, when
truthy, the clause's body runs, otherwise the remaining clauses are
tried; and a matched clause's empty body returns the test's own value, a
single-expression body is tail-evaluated, and a multi-expression body
runs through the sequence evaluator. -/
theorem do_cond_form_spec {α : Type} (ev : SVal → Nat → M SVal)
    (evt : SVal → Nat → M α) (ret : SVal → α) (env : Nat) :
    (do_cond_form ev evt ret .nil env = M.pure (ret .okay)) ∧
    (∀ rest, do_cond_form ev evt ret (.pair .nil rest) env =
      M.err (.schemeError ("too few operands in form") [])) ∧
    (∀ body rest, rest ≠ .nil →
      do_cond_form ev evt ret
        (.pair (.pair (.sym ("else")) (.pair body .nil)) rest) env =
      M.err (.schemeError ("else must be last") [])) ∧
    (do_cond_form ev evt ret (.pair (.pair (.sym ("else")) .nil) .nil) env =
      M.err (.schemeError ("badly formed else clause") [])) ∧
    (∀ body, body ≠ .nil →
      check_form (.pair (.sym ("else")) body) 1 none = .ok () →
      do_cond_form ev evt ret (.pair (.pair (.sym ("else")) body) .nil) env =
      cond_body ev evt ret (.pair (.sym ("else")) body) (.bool true) env) ∧
    (∀ clause rest st test st',
      check_form clause 1 none = .ok () →
      (clause.fst == .sym ("else")) = false →
      ev clause.fst env st = .ok test st' →
      do_cond_form ev evt ret (.pair clause rest) env st =
        (if scheme_true test then cond_body ev evt ret clause test env st'
         else do_cond_form ev evt ret rest env st')) ∧
    (∀ clause test, clause.snd = .nil →
      cond_body ev evt ret clause test env = M.pure (ret test)) ∧
    (∀ clause b test, clause.snd = .pair b .nil →
      cond_body ev evt ret clause test env = evt b env) ∧
    (∀ clause b c r test, clause.snd = .pair b (.pair c r) →
      cond_body ev evt ret clause test env =
        eval_all ev evt ret (.pair b (.pair c r)) env) := by
  refine ⟨rfl, ?_, ?_, ?_, ?_, ?_, ?_, ?_, ?_⟩
  · intro rest
    simp [do_cond_form, check_form, scheme_listp, listLen]
  · intro body rest hrest
    simp [do_cond_form, check_form, scheme_listp, listLen, SVal.fst,
      SVal.snd, hrest]
  · simp [do_cond_form, check_form, scheme_listp, listLen, SVal.fst,
      SVal.snd]
  · intro body hne hcf
    have hb : (body == SVal.nil) = false := by
      cases hx : body == SVal.nil
      · rfl
      · exact absurd (eq_of_beq hx) hne
    simp [do_cond_form, hcf, hb, SVal.fst, SVal.snd, hne]
  · intro clause rest st test st' hcf hfst hev
    cases h : scheme_true test <;>
      simp [do_cond_form, hcf, hfst, hev, h]
  · intro clause test h
    simp [cond_body, h]
  · intro clause b test h
    simp [cond_body, h]
  · intro clause b c r test h
    simp [cond_body, h]

/-- Witness for C4: the matched first clause `(#t 7)` of a cond is
selected by its evaluated truthy test. -/
theorem do_cond_form_spec_witness :
    do_cond_form (scheme_eval 0) (scheme_eval 0) id
        (.pair (.pair (.bool true) (.pair (.num (.i 7)) .nil)) .nil) 0 [] =
      (if scheme_true (.bool true) then
         cond_body (scheme_eval 0) (scheme_eval 0) id
           (.pair (.bool true) (.pair (.num (.i 7)) .nil)) (.bool true) 0 []
       else do_cond_form (scheme_eval 0) (scheme_eval 0) id .nil 0 []) :=
  (do_cond_form_spec (scheme_eval 0) (scheme_eval 0) id 0).2.2.2.2.2.1
    (.pair (.bool true) (.pair (.num (.i 7)) .nil)) .nil []
    (.bool true) [] rfl (by decide) rfl

/-! ## let semantics (claim C5) -/

/-- C5: the let form's binding list is validated (a binding that is not
a 2-list, or whose head is not a symbol, is a SchemeError); each
binding's right-hand side is evaluated in the OUTER environment and its
value bound in the new frame; the let frame is allocated as a fresh
child of the outer environment and the body then runs there; and
concretely `(let ((a 1) (b 2)) (+ a b))` evaluates to 3 in the global
frame, which is left unchanged — `a` and `b` live only in the child
frame. -/
theorem do_let_form_spec {α : Type} (ev : SVal → Nat → M SVal)
    (evt : SVal → Nat → M α) (ret : SVal → α) :
    (∀ bind rest env let_env n, listLen bind = some n → n ≠ 2 →
      make_let_go ev (.pair bind rest) env let_env =
        M.err (.schemeError ("bad definition") [])) ∧
    (∀ bind rest env let_env, listLen bind = some 2 →
      scheme_symbolp bind.fst = false →
      make_let_go ev (.pair bind rest) env let_env =
        M.err (.schemeError ("invalid scheme symbol") [bind.fst])) ∧
    (∀ bind rest env let_env st s v st', listLen bind = some 2 →
      bind.fst = .sym s → ev (nthD bind 1) env st = .ok v st' →
      make_let_go ev (.pair bind rest) env let_env st =
        make_let_go ev rest env let_env (frame_define st' let_env s v)) ∧
    (∀ bindings env st, scheme_listp bindings = true →
      make_let_frame ev bindings env st =
        make_let_go ev bindings env st.length
          (st ++ [{ bindings := [], parent := some env }])) ∧
    (∀ expressions env, do_let_form ev evt ret expressions env =
      M.chk (check_form expressions 2 none)
        (M.bind (make_let_frame ev expressions.fst env) fun let_env =>
          eval_all ev evt ret expressions.snd let_env)) ∧
    (scheme_eval 10 let_example 0 [global_frame] =
      .ok (.num (.i 3))
        [global_frame,
         { bindings := [("a", .num (.i 1)), ("b", .num (.i 2))],
           parent := some 0 }]) := by
  refine ⟨?_, ?_, ?_, ?_, fun _ _ => rfl, by decide⟩
  · intro bind rest env let_env n hn hne
    simp [make_let_go, hn, hne]
  · intro bind rest env let_env hn hsym
    simp [make_let_go, hn, check_formals, check_formals_go, toHostList,
      scheme_listp, hsym]
  · intro bind rest env let_env st s v st' hn hfst hev
    simp [make_let_go, hn, hfst, check_formals, check_formals_go,
      toHostList, scheme_listp, scheme_symbolp, symName, List.erase, hev]
  · intro bindings env st hl
    simp [make_let_frame, hl, make_child_frame, listLen, toHostList,
      bind_formals]

/-- Witness for C5: binding `a` to the already evaluated `1` in the let
frame and moving on to the remaining bindings. -/
theorem do_let_form_spec_witness :
    make_let_go (scheme_eval 0)
        (.pair (.pair (.sym ("a")) (.pair (.num (.i 1)) .nil)) .nil) 0 0 [] =
      make_let_go (scheme_eval 0) .nil 0 0
        (frame_define [] 0 ("a") (.num (.i 1))) :=
  (do_let_form_spec (scheme_eval 0) (scheme_eval 0) id).2.2.1
    (.pair (.sym ("a")) (.pair (.num (.i 1)) .nil)) .nil 0 0 [] ("a")
    (.num (.i 1)) [] (by decide) (by decide) (by decide)

/-! ## Integral normalization of arithmetic (claim C6) -/

/-- Counterexample to C6 as stated: the single-argument division
`(/ 1)` returns the host float `1.0` — an integral value left in
floating-point representation — because `scheme_div`'s one-argument
branch returns the raw `1 / val0` without the `_arith` normalization
step. -/
theorem scheme_div_single_arg_float :
    scheme_div (.num (.i 1)) [] = .ok (.num (.f 1)) ∧
    (¬ ∃ k : Int, scheme_div (.num (.i 1)) [] = .ok (.num (.i k))) := by
  have h1 : scheme_div (.num (.i 1)) [] = .ok (.num (.f 1)) := by
    simp [scheme_div, scheme_div_body, _check_nums, check_nums_go,
      pyTruediv, PyNum.toQ]
  refine ⟨h1, ?_⟩
  rintro ⟨k, hk⟩
  rw [h1] at hk
  simp at hk

/-- C6 amended: every result of the shared `_arith` fold (`+` and `*`
always, `-` and `/` with at least two arguments) passes through the
normalization step `roundNorm`, which converts a mathematically
integral float to integer representation and preserves the value; but
the one-argument cases and `expt` skip it: `(/ 1)` is the float `1.0`,
`(- 2.0)` is the float `-2.0`, and `(expt 2.0 2)` is the float
`4.0`. -/
theorem arith_normalizes_integral_results :
    (∀ fn init vals s, _check_nums vals = .ok () →
      arith_fold fn init vals = .ok s →
      _arith fn init vals = .ok (.num (roundNorm s))) ∧
    (∀ q : Rat, q.den = 1 → roundNorm (.f q) = .i q.num) ∧
    (∀ q : Rat, q.den ≠ 1 → roundNorm (.f q) = .f q) ∧
    (∀ s, (roundNorm s).toQ = s.toQ) ∧
    (scheme_div (.num (.i 1)) [] = .ok (.num (.f 1))) ∧
    (scheme_sub (.num (.f 2)) [] = .ok (.num (.f (-2)))) ∧
    (scheme_expt (.num (.f 2)) (.num (.i 2)) = .ok (.num (.f 4))) := by
  refine ⟨?_, ?_, ?_, ?_, ?_, ?_, ?_⟩
  · intro fn init vals s hc hf
    rw [_arith, hc, hf]
    rfl
  · intro q hq
    simp [roundNorm, hq]
  · intro q hq
    simp [roundNorm, hq]
  · intro s
    cases s with
    | i a => rfl
    | f q =>
      rw [roundNorm]
      by_cases hq : q.den = 1
      · rw [if_pos hq]
        show ((q.num : Rat)) = q
        exact Rat.coe_int_num_of_den_eq_one hq
      · rw [if_neg hq]
  · simp [scheme_div, scheme_div_body, _check_nums, check_nums_go,
      pyTruediv, PyNum.toQ]
  · rfl
  · simp [scheme_expt, _check_nums, check_nums_go, pyPow, Except.bind,
      Except.pure, Bind.bind, Pure.pure,
      show ((2 : Int)).toNat = 2 from rfl]
    norm_num

/-- Witness for C6 (amended): `(- 5 2)` runs through the `_arith` fold
and its result is the normalization of the folded difference. -/
theorem arith_normalizes_witness :
    _arith pySubE (.i 5) [.num (.i 2)] = .ok (.num (roundNorm (.i 3))) :=
  arith_normalizes_integral_results.1 pySubE (.i 5) [.num (.i 2)] (.i 3)
    rfl rfl

/-! ## The define special form on a symbol target (claim C7) -/

/-- C7: a define form whose first operand is a symbol requires exactly
two operands — one operand or three operands is a SchemeError;
otherwise it evaluates the second operand in the current environment,
binds the result to the symbol in the current frame, and returns the
bound symbol itself; and the binding write touches no other frame of
the store. -/
theorem do_define_form_symbol_spec {α : Type} (ev : SVal → Nat → M SVal)
    (ret : SVal → α) (env : Nat) :
    (∀ s, do_define_form ev ret (.pair (.sym s) .nil) env =
      M.err (.schemeError ("too few operands in form") [])) ∧
    (∀ s e extra, do_define_form ev ret
        (.pair (.sym s) (.pair e (.pair extra .nil))) env =
      M.err (.schemeError ("too many operands in form") [])) ∧
    (∀ s e st v st', ev e env st = .ok v st' →
      do_define_form ev ret (.pair (.sym s) (.pair e .nil)) env st =
        .ok (ret (.sym s)) (frame_define st' env s v)) ∧
    (∀ st id s v j, j ≠ id → (frame_define st id s v)[j]? = st[j]?) := by
  refine ⟨?_, ?_, ?_, ?_⟩
  · intro s
    simp [do_define_form, check_form, scheme_listp, listLen]
  · intro s e extra
    simp [do_define_form, check_form, scheme_listp, listLen, nthD, nth]
  · intro s e st v st' hev
    simp [do_define_form, check_form, scheme_listp, listLen, nthD, nth, hev]
  · intro st id s v j hj
    rw [frame_define]
    cases hst : st[id]? with
    | none => rfl
    | some fr => exact List.getElem?_set_ne (fun h => hj h.symm)

/-- Witness for C7: `(define x 5)` in a store of one empty frame binds
`x` there and returns the symbol. -/
theorem do_define_form_symbol_witness :
    do_define_form (scheme_eval 0) id
        (.pair (.sym ("x")) (.pair (.num (.i 5)) .nil)) 0
        [{ bindings := [], parent := none }] =
      .ok (id (SVal.sym ("x")))
        (frame_define [{ bindings := [], parent := none }] 0 ("x")
          (.num (.i 5))) :=
  (do_define_form_symbol_spec (scheme_eval 0) id 0).2.2.1 ("x")
    (.num (.i 5)) [{ bindings := [], parent := none }] (.num (.i 5))
    [{ bindings := [], parent := none }] rfl

/-! ## Child frames and arity (claim C8) -/

/-- A binding write never changes any frame's parent pointer. -/
theorem frame_define_parent (st : Store) (id : Nat) (s : String) (v : SVal)
    (j : Nat) :
    ((frame_define st id s v)[j]?).map Frame.parent =
      (st[j]?).map Frame.parent := by
  rw [frame_define]
  cases hst : st[id]? with
  | none => rfl
  | some fr =>
    by_cases h : id = j
    · subst h
      have hlt : id < st.length := by
        by_contra hge
        rw [List.getElem?_eq_none (by omega)] at hst
        cases hst
      rw [List.getElem?_set_self hlt, hst]
      rfl
    · rw [List.getElem?_set_ne h]

/-- Binding formals positionally never changes any frame's parent
pointer. -/
theorem bind_formals_parent (id j : Nat) :
    ∀ (fs vs : List SVal) (st : Store),
      ((bind_formals st id fs vs)[j]?).map Frame.parent =
        (st[j]?).map Frame.parent := by
  intro fs
  induction fs with
  | nil => intro vs st; simp [bind_formals]
  | cons f fs ih =>
    intro vs st
    cases vs with
    | nil => simp [bind_formals]
    | cons v vs =>
      cases f with
      | sym s =>
        simp only [bind_formals]
        rw [ih, frame_define_parent]
      | nil => simp [bind_formals]
      | bool b => simp [bind_formals]
      | num n => simp [bind_formals]
      | str t => simp [bind_formals]
      | okay => simp [bind_formals]
      | pair a b => simp [bind_formals]
      | prim p u => simp [bind_formals]
      | lambdaP a b c => simp [bind_formals]
      | muP a b => simp [bind_formals]

/-- C8: make_child_frame with formals and values of different lengths
fails with the ArityError `Invalid number of arguments`; with matching
lengths it allocates a new frame at the end of the store, parented to
the given frame, and binds each formal positionally to the
corresponding value; hence `((lambda (x y) x) 1)` fails with the
ArityError while `((lambda (x y) x) 1 2)` binds x to 1, y to 2 in the
new child frame and returns 1. -/
theorem make_child_frame_spec :
    (∀ st id formals vals lf lv, listLen formals = some lf →
      listLen vals = some lv → lf ≠ lv →
      make_child_frame st id formals vals =
        .err (.schemeError ("Invalid number of arguments") [])) ∧
    (∀ st id formals vals lf, listLen formals = some lf →
      listLen vals = some lf →
      make_child_frame st id formals vals =
        .ok st.length
          (bind_formals (st ++ [{ bindings := [], parent := some id }])
            st.length (toHostList formals) (toHostList vals))) ∧
    (∀ st id formals vals lf st2, listLen formals = some lf →
      listLen vals = some lf →
      make_child_frame st id formals vals = .ok st.length st2 →
      (st2[st.length]?).map Frame.parent = some (some id)) ∧
    (scheme_eval 10 arity_example 0 [{ bindings := [], parent := none }] =
      .err (.schemeError ("Invalid number of arguments") [])) ∧
    (scheme_eval 10 call_example 0 [{ bindings := [], parent := none }] =
      .ok (.num (.i 1))
        [{ bindings := [], parent := none },
         { bindings := [("x", .num (.i 1)), ("y", .num (.i 2))],
           parent := some 0 }]) := by
  have hmk : ∀ (st : Store) (id : Nat) (formals vals : SVal) (lf : Nat),
      listLen formals = some lf → listLen vals = some lf →
      make_child_frame st id formals vals =
        .ok st.length
          (bind_formals (st ++ [{ bindings := [], parent := some id }])
            st.length (toHostList formals) (toHostList vals)) := by
    intro st id formals vals lf hf hv
    rw [make_child_frame, hf, hv]
    simp
  refine ⟨?_, hmk, ?_, by decide, by decide⟩
  · intro st id formals vals lf lv hf hv hne
    rw [make_child_frame, hf, hv]
    simp [hne]
  · intro st id formals vals lf st2 hf hv hok
    rw [hmk st id formals vals lf hf hv] at hok
    cases hok
    rw [bind_formals_parent, getElem_append_len]
    rfl

/-- Witness for C8: zero formals against one value is an arity
mismatch. -/
theorem make_child_frame_spec_witness :
    make_child_frame [] 0 .nil (.pair (.num (.i 1)) .nil) =
      .err (.schemeError ("Invalid number of arguments") []) :=
  make_child_frame_spec.1 [] 0 .nil (.pair (.num (.i 1)) .nil) 0 1
    rfl rfl (by decide)

/-! ## Empty sequences evaluate to the okay sentinel (claim C9) -/

/-- C9: evaluating an empty expression sequence yields the okay
sentinel rather than failing, for either evaluator instantiation; in
particular applying a user-defined procedure whose body is the empty
list returns okay (in the call frame built for the application). -/
theorem eval_all_empty_okay {α : Type} (ev : SVal → Nat → M SVal)
    (evt : SVal → Nat → M α) (ret : SVal → α) :
    (∀ env, eval_all ev evt ret .nil env = M.pure (ret .okay)) ∧
    (∀ formals args penv env st k, listLen formals = some k →
      listLen args = some k →
      scheme_apply ev evt ret (.lambdaP formals .nil penv) args env st =
        .ok (ret .okay)
          (bind_formals (st ++ [{ bindings := [], parent := some penv }])
            st.length (toHostList formals) (toHostList args))) := by
  refine ⟨fun env => rfl, ?_⟩
  intro formals args penv env st k hf ha
  rw [scheme_apply]
  simp only [M.bind_apply, make_call_frame]
  rw [make_child_frame, hf, ha]
  simp [eval_all, M.pure]

/-- Witness for C9: a lambda with no formals and an empty body applied
to no arguments returns okay. -/
theorem eval_all_empty_okay_witness :
    scheme_apply (scheme_eval 0) (scheme_eval 0) id
        (.lambdaP .nil .nil 0) .nil 0 [] =
      .ok (id SVal.okay)
        (bind_formals ([] ++ [{ bindings := [], parent := some 0 }]) 0
          (toHostList .nil) (toHostList .nil)) :=
  (eval_all_empty_okay (scheme_eval 0) (scheme_eval 0) id).2
    .nil .nil 0 0 [] 0 rfl rfl

/-! ## remainder is truncated, modulo is floored (claim C10) -/

/-- Bounds and sign of the floored modulus: magnitude below the
divisor's, sign of the divisor (or zero). -/
theorem int_fmod_bounds (a b : Int) (hb : b ≠ 0) :
    (Int.fmod a b).natAbs < b.natAbs ∧
    (0 < b → 0 ≤ Int.fmod a b) ∧ (b < 0 → Int.fmod a b ≤ 0) := by
  rcases a with m | m <;> rcases b with n | n <;>
    simp only [Int.ofNat_eq_natCast, Int.negSucc_eq] at hb ⊢
  · have hn : 0 < n := by omega
    cases m with
    | zero =>
      have he : Int.fmod ((0 : Nat) : Int) (n : Int) = 0 := rfl
      rw [he]
      exact ⟨by omega, fun h => by omega, fun h => by omega⟩
    | succ m =>
      have hmod : (m + 1) % n < n := Nat.mod_lt _ hn
      have he : Int.fmod (((m + 1 : Nat)) : Int) (n : Int) =
          (((m + 1) % n : Nat) : Int) := rfl
      rw [he]
      exact ⟨by omega, fun h => by omega, fun h => by omega⟩
  · cases m with
    | zero =>
      have he : Int.fmod ((0 : Nat) : Int) (-((n : Int) + 1)) = 0 := rfl
      rw [he]
      exact ⟨by omega, fun h => by omega, fun h => by omega⟩
    | succ m =>
      have hmod : m % (n + 1) < n + 1 := Nat.mod_lt _ (Nat.succ_pos n)
      have he : Int.fmod (((m + 1 : Nat)) : Int) (-((n : Int) + 1)) =
          Int.subNatNat (m % (n + 1)) n := rfl
      rw [he, Int.subNatNat_eq_coe]
      exact ⟨by omega, fun h => by omega, fun h => by omega⟩
  · have hn : 0 < n := by omega
    have hmod : m % n < n := Nat.mod_lt _ hn
    have he : Int.fmod (-((m : Int) + 1)) (n : Int) =
        Int.subNatNat n (m % n + 1) := rfl
    rw [he, Int.subNatNat_eq_coe]
    exact ⟨by omega, fun h => by omega, fun h => by omega⟩
  · have hmod : (m + 1) % (n + 1) < n + 1 := Nat.mod_lt _ (Nat.succ_pos n)
    have he : Int.fmod (-((m : Int) + 1)) (-((n : Int) + 1)) =
        -((((m + 1) % (n + 1) : Nat)) : Int) := rfl
    rw [he]
    exact ⟨by omega, fun h => by omega, fun h => by omega⟩

/-- Bounds and sign of the truncated (toward-zero) remainder: magnitude
below the divisor's, sign of the dividend (or zero). -/
theorem int_tmod_bounds (a b : Int) (hb : b ≠ 0) :
    (Int.tmod a b).natAbs < b.natAbs ∧
    (0 ≤ a → 0 ≤ Int.tmod a b) ∧ (a ≤ 0 → Int.tmod a b ≤ 0) := by
  rcases a with m | m <;> rcases b with n | n <;>
    simp only [Int.ofNat_eq_natCast, Int.negSucc_eq] at hb ⊢
  · have hn : 0 < n := by omega
    have hmod : m % n < n := Nat.mod_lt _ hn
    have hle : m % n ≤ m := Nat.mod_le m n
    have he : Int.tmod ((m : Nat) : Int) (n : Int) =
        ((m % n : Nat) : Int) := rfl
    rw [he]
    exact ⟨by omega, fun h => by omega, fun h => by omega⟩
  · have hmod : m % (n + 1) < n + 1 := Nat.mod_lt _ (Nat.succ_pos n)
    have hle : m % (n + 1) ≤ m := Nat.mod_le m (n + 1)
    have he : Int.tmod ((m : Nat) : Int) (-((n : Int) + 1)) =
        ((m % (n + 1) : Nat) : Int) := rfl
    rw [he]
    exact ⟨by omega, fun h => by omega, fun h => by omega⟩
  · have hn : 0 < n := by omega
    have hmod : (m + 1) % n < n := Nat.mod_lt _ hn
    have he : Int.tmod (-((m : Int) + 1)) (n : Int) =
        -((((m + 1) % n : Nat)) : Int) := rfl
    rw [he]
    exact ⟨by omega, fun h => by omega, fun h => by omega⟩
  · have hmod : (m + 1) % (n + 1) < n + 1 := Nat.mod_lt _ (Nat.succ_pos n)
    have he : Int.tmod (-((m : Int) + 1)) (-((n : Int) + 1)) =
        -((((m + 1) % (n + 1) : Nat)) : Int) := rfl
    rw [he]
    exact ⟨by omega, fun h => by omega, fun h => by omega⟩

/-- One unfolding of the sign-correcting loop on integer arguments,
with the host comparisons brought back to the integers. -/
theorem rem_loop_step (a b r : Int) (f : Nat) :
    rem_loop (f + 1) (.i a) (.i b) (.i r) =
      if (r < 0 ∧ 0 < a) ∨ (0 < r ∧ a < 0) then
        rem_loop f (.i a) (.i b) (.i (r - b))
      else some (.i r) := by
  rw [rem_loop]
  simp only [PyNum.lt, PyNum.toQ, pySub, Int.cast_lt]

/-- The sign-correcting loop, started from the floored modulus, lands
on the truncated remainder within two steps. -/
theorem rem_loop_eq_tmod (a b : Int) (hb : b ≠ 0) :
    rem_loop 2 (.i a) (.i b) (.i (Int.fmod a b)) =
      some (.i (Int.tmod a b)) := by
  obtain ⟨hfabs, hfpos, hfneg⟩ := int_fmod_bounds a b hb
  obtain ⟨htabs, htpos, htneg⟩ := int_tmod_bounds a b hb
  have h0 : a = 0 → Int.fmod a b = 0 ∧ Int.tmod a b = 0 := by
    rintro rfl
    exact ⟨Int.zero_fmod b, Int.zero_tmod b⟩
  obtain ⟨k, hk⟩ : ∃ k : Int, Int.tmod a b - Int.fmod a b = b * k :=
    ⟨Int.fdiv a b - Int.tdiv a b, by
      rw [Int.tmod_def, Int.fmod_def]; ring⟩
  have hkrange : k = -1 ∨ k = 0 ∨ k = 1 := by
    have h1 : (Int.tmod a b - Int.fmod a b).natAbs < 2 * b.natAbs := by
      omega
    rw [hk, Int.natAbs_mul] at h1
    have h2 : k.natAbs < 2 := by
      by_contra h2
      push_neg at h2
      have h3 : b.natAbs * 2 ≤ b.natAbs * k.natAbs :=
        Nat.mul_le_mul_left _ h2
      omega
    omega
  by_cases hC : (Int.fmod a b < 0 ∧ 0 < a) ∨ (0 < Int.fmod a b ∧ a < 0)
  · rw [show (2 : Nat) = 1 + 1 from rfl, rem_loop_step, if_pos hC,
      rem_loop_step]
    have ht : Int.tmod a b = Int.fmod a b - b := by
      rcases hkrange with rfl | rfl | rfl <;> omega
    rw [if_neg (by omega), ht]
  · rw [show (2 : Nat) = 1 + 1 from rfl, rem_loop_step, if_neg hC]
    have ht : Int.tmod a b = Int.fmod a b := by
      rcases hkrange with rfl | rfl | rfl <;> omega
    rw [ht]

/-- C10: on integers with a nonzero divisor, the remainder primitive
returns the truncated remainder `a - b * tdiv a b` — zero or of the
dividend's sign, with magnitude below the divisor's — while the modulo
primitive returns the floored modulus, whose nonzero values take the
divisor's sign. -/
theorem remainder_truncated_modulo_floored (a b : Int) (hb : b ≠ 0) :
    scheme_remainder 2 (.num (.i a)) (.num (.i b)) =
      .ok (.num (.i (Int.tmod a b))) ∧
    Int.tmod a b = a - b * Int.tdiv a b ∧
    (Int.tmod a b = 0 ∨ (0 < a ∧ 0 < Int.tmod a b) ∨
      (a < 0 ∧ Int.tmod a b < 0) ∨ Int.tmod a b = 0) ∧
    (Int.tmod a b).natAbs < b.natAbs ∧
    scheme_modulo (.num (.i a)) (.num (.i b)) =
      .ok (.num (.i (Int.fmod a b))) ∧
    (Int.fmod a b ≠ 0 → (0 < b ∧ 0 < Int.fmod a b) ∨
      (b < 0 ∧ Int.fmod a b < 0)) := by
  obtain ⟨hfabs, hfpos, hfneg⟩ := int_fmod_bounds a b hb
  obtain ⟨htabs, htpos, htneg⟩ := int_tmod_bounds a b hb
  have h0 : Int.tmod 0 b = 0 := Int.zero_tmod b
  have h0f : Int.fmod 0 b = 0 := Int.zero_fmod b
  refine ⟨?_, Int.tmod_def a b, ?_, htabs, ?_, ?_⟩
  · have hm : pyMod (.i a) (.i b) = .ok (.i (Int.fmod a b)) := by
      rw [pyMod, if_neg hb]
    rw [scheme_remainder]
    simp only [show _check_nums [SVal.num (PyNum.i a), SVal.num (PyNum.i b)] =
        Except.ok () from rfl, hm, rem_loop_eq_tmod a b hb]
  · by_cases ha : a = 0
    · subst ha; simp [h0]
    · rcases lt_trichotomy a 0 with h | h | h
      · have := htneg (le_of_lt h)
        rcases eq_or_lt_of_le this with he | hlt
        · exact Or.inl he
        · exact Or.inr (Or.inr (Or.inl ⟨h, hlt⟩))
      · exact absurd h ha
      · have := htpos (le_of_lt h)
        rcases eq_or_lt_of_le this with he | hlt
        · exact Or.inl he.symm
        · exact Or.inr (Or.inl ⟨h, hlt⟩)
  · have hm : pyMod (.i a) (.i b) = .ok (.i (Int.fmod a b)) := by
      rw [pyMod, if_neg hb]
    rw [scheme_modulo]
    simp only [show _check_nums [SVal.num (PyNum.i a), SVal.num (PyNum.i b)] =
        Except.ok () from rfl, hm]
  · intro hne
    rcases lt_trichotomy b 0 with h | h | h
    · exact Or.inr ⟨h, lt_of_le_of_ne (hfneg h) hne⟩
    · exact absurd h hb
    · exact Or.inl ⟨h, lt_of_le_of_ne (hfpos h) (Ne.symm hne)⟩

/-- Witness for C10 at the dividend −7 and divisor 3: the remainder is
−1 (truncated) while the modulo is 2 (floored). -/
theorem remainder_truncated_witness :
    scheme_remainder 2 (.num (.i (-7))) (.num (.i 3)) =
      .ok (.num (.i (Int.tmod (-7) 3))) ∧
    Int.tmod (-7) 3 = -7 - 3 * Int.tdiv (-7) 3 ∧
    (Int.tmod (-7) 3 = 0 ∨ (0 < (-7 : Int) ∧ 0 < Int.tmod (-7) 3) ∨
      ((-7 : Int) < 0 ∧ Int.tmod (-7) 3 < 0) ∨ Int.tmod (-7) 3 = 0) ∧
    (Int.tmod (-7) 3).natAbs < (3 : Int).natAbs ∧
    scheme_modulo (.num (.i (-7))) (.num (.i 3)) =
      .ok (.num (.i (Int.fmod (-7) 3))) ∧
    (Int.fmod (-7) 3 ≠ 0 → (0 < (3 : Int) ∧ 0 < Int.fmod (-7) 3) ∨
      ((3 : Int) < 0 ∧ Int.fmod (-7) 3 < 0)) :=
  remainder_truncated_modulo_floored (-7) 3 (by decide)
